import Mathlib

/-!
# RavenShell: verification of the language pipeline

Shallow embedding of the RavenShell interpreter (Go): the byte-level lexers,
the Pratt parser, and the tree-walking evaluator, together with theorems
settling the specification claims about them.

Conventions:
* Go strings are byte sequences; the lexers work on `List Nat`, one `Nat`
  (value < 256) per byte.  `unicode.IsSpace`, `unicode.IsLetter`, `unicode.IsDigit`
  applied to `rune(ch)` for a byte `ch` are encoded by the exact Latin-1
  tables of the Go `unicode` package restricted to code points 0..255.
* `l.peek()` returns 0 past the end of input; the lexers are modelled on the
  remaining input list, where `peek [] = 0`.
* Fallible Go code returning `(T, error)` is modelled with `Except`/`Option`.
-/

namespace RavenShell

/-- `unicode.IsSpace(rune(c))` for a byte `c`: `\t \n \v \f \r` space, NEL (0x85), NBSP (0xA0). -/
def isSpaceB (c : Nat) : Bool :=
  c == 9 || c == 10 || c == 11 || c == 12 || c == 13 || c == 32 || c == 133 || c == 160

/-- `unicode.IsDigit(rune(c))` for a byte `c`. -/
def isDigitB (c : Nat) : Bool :=
  decide (48 ≤ c) && decide (c ≤ 57)

/-- `unicode.IsLetter(rune(c))` for a byte `c`: ASCII letters plus the
Latin-1 letters ª µ º À-Ö Ø-ö ø-ÿ. -/
def isLetterB (c : Nat) : Bool :=
  (decide (65 ≤ c) && decide (c ≤ 90)) || (decide (97 ≤ c) && decide (c ≤ 122)) ||
  c == 170 || c == 181 || c == 186 ||
  (decide (192 ≤ c) && decide (c ≤ 214)) || (decide (216 ≤ c) && decide (c ≤ 246)) ||
  (decide (248 ≤ c) && decide (c ≤ 255))

/-- `isAlphanumeric` from `lexer.go`: letter, digit or underscore. -/
def isAlphanumericB (c : Nat) : Bool :=
  isLetterB c || isDigitB c || c == 95

/-- Bytes of an ASCII Lean string (used to write concrete inputs). -/
def bs (s : String) : List Nat := s.toList.map Char.toNat

/-- Back from bytes to a Lean string (each byte is a Latin-1 code point). -/
def strB (l : List Nat) : String := String.mk (l.map Char.ofNat)

/-- `token.TokenType` (src/token/token.go): all token kinds of the repository,
current and historical. -/
inductive TokenType where
  | EOF | ILLEGAL | LIST | REMOVE | CHANGEDIR | REMOVEDIR | MAKEDIR | WHOAMI
  | CURRENTDIR | MAKEFILE | OUTPUT | IDENT | INTEGER | STRING | PIPE | DOLLAR
  | PRINT | SHOW | CLEAR | GREATER | INTO | LESS | OUT | FULLSTOP | FSLASH | TILDE
  | FOR | IN | IF | ELSE | RANGE | APPEND | BREAK | CONTINUE | FUNCTION | RETURN
  | SWITCH | CASE | DEFAULT
  | LBRACE | RBRACE | LPAREN | RPAREN | LBRACKET | RBRACKET | COMMA | COLON
  | ASSIGN | PLUS | MINUS | ASTERISK | PERCENT | EQ | NOT_EQ | LT | GT | LTE | GTE
  | AND | OR | NOT | TRUE | FALSE | REGEX_MATCH
deriving DecidableEq, Repr

/-- `token.Token`: kind and literal text (as bytes). -/
structure Token where
  type : TokenType
  literal : List Nat
deriving DecidableEq, Repr

/-- `token.TokenMap` (src/token/token.go): keyword table. -/
def TokenMap : List (List Nat × TokenType) :=
  [ (bs "ls", .LIST), (bs "rm", .REMOVE), (bs "mkdir", .MAKEDIR), (bs "rmdir", .REMOVEDIR),
    (bs "cd", .CHANGEDIR), (bs "cwd", .CURRENTDIR), (bs "whoami", .WHOAMI),
    (bs "mkfile", .MAKEFILE), (bs "output", .OUTPUT), (bs "print", .PRINT),
    (bs "show", .SHOW), (bs "clear", .CLEAR), (bs "for", .FOR), (bs "in", .IN),
    (bs "if", .IF), (bs "else", .ELSE), (bs "range", .RANGE), (bs "append", .APPEND),
    (bs "break", .BREAK), (bs "continue", .CONTINUE), (bs "fn", .FUNCTION),
    (bs "func", .FUNCTION), (bs "return", .RETURN), (bs "switch", .SWITCH),
    (bs "match", .SWITCH), (bs "case", .CASE), (bs "default", .DEFAULT),
    (bs "true", .TRUE), (bs "false", .FALSE) ]

/-- Go map lookup `token.TokenMap[literal]`. -/
def lookupTokenMap (w : List Nat) : Option TokenType :=
  (TokenMap.find? (fun kv => kv.1 == w)).map (·.2)

/-! ## Shared pieces of both lexers -/

/-- The string-scanning loop `for l.peek() != delim && l.peek() != 0 { advance }`:
returns the content read and the rest starting at the stopping byte. -/
def takeStr (d : Nat) : List Nat → List Nat × List Nat
  | [] => ([], [])
  | c :: cs =>
    if c == d || c == 0 then ([], c :: cs)
    else
      let r := takeStr d cs
      (c :: r.1, r.2)

/-- The string-literal branch of `NextToken` (identical in both lexers), applied
to the input just after the opening delimiter `d`: a closing delimiter yields
STRING (consuming it); end of input or a NUL byte yields ILLEGAL with the
partial content, without advancing. -/
def lexString (d : Nat) (l : List Nat) : Token × List Nat :=
  let r := takeStr d l
  match r.2 with
  | c :: cs => if c == d then (⟨.STRING, r.1⟩, cs) else (⟨.ILLEGAL, r.1⟩, c :: cs)
  | [] => (⟨.ILLEGAL, r.1⟩, [])

/-- Maximal run of bytes satisfying `p` (the digit/identifier loops). -/
def spanWhile (p : Nat → Bool) : List Nat → List Nat × List Nat
  | [] => ([], [])
  | c :: cs =>
    if p c then
      let r := spanWhile p cs
      (c :: r.1, r.2)
    else ([], c :: cs)

/-! ## The old lexer (src/lexer/lexer.go) — the one the part_005 parser is built on -/

/-- Whitespace skipping of the old lexer's `NextToken` (it has no comments). -/
def skipSpacesOld : List Nat → List Nat
  | [] => []
  | c :: cs => if isSpaceB c then skipSpacesOld cs else c :: cs

/-- The dispatch of `(*Lexer).NextToken` of src/lexer/lexer.go after
whitespace skipping. -/
def nextTokenOldCore : List Nat → Token × List Nat
  | [] => (⟨.EOF, []⟩, [])
  | c :: cs =>
    if c == 124 then (⟨.PIPE, [c]⟩, cs)
    else if c == 46 then (⟨.FULLSTOP, [c]⟩, cs)
    else if c == 36 then (⟨.DOLLAR, [c]⟩, cs)
    else if c == 47 then (⟨.FSLASH, [c]⟩, cs)
    else if c == 62 then
      match cs with
      | c2 :: cs2 => if c2 == 62 then (⟨.INTO, [62, 62]⟩, cs2) else (⟨.GREATER, [c]⟩, cs)
      | [] => (⟨.GREATER, [c]⟩, [])
    else if c == 60 then
      match cs with
      | c2 :: cs2 => if c2 == 60 then (⟨.OUT, [60, 60]⟩, cs2) else (⟨.LESS, [c]⟩, cs)
      | [] => (⟨.LESS, [c]⟩, [])
    else if c == 34 then lexString 34 cs
    else if c == 39 then lexString 39 cs
    else if c == 0 then (⟨.EOF, []⟩, c :: cs)
    else if isDigitB c then
      let r := spanWhile isDigitB (c :: cs)
      (⟨.INTEGER, r.1⟩, r.2)
    else if isLetterB c then
      let r := spanWhile isAlphanumericB (c :: cs)
      (⟨.IDENT, r.1⟩, r.2)
    else (⟨.ILLEGAL, [c]⟩, cs)

/-- `(*Lexer).NextToken` of src/lexer/lexer.go on the remaining input;
returns the token and the input that remains after it. -/
def nextTokenOld (l : List Nat) : Token × List Nat :=
  nextTokenOldCore (skipSpacesOld l)

/-! ## The current lexer (src/unnamed/part_002) -/

/-- The comment-skipping loop: `for l.peek() != '\n' && l.peek() != 0 { advance }`. -/
def dropCommentBody : List Nat → List Nat
  | [] => []
  | c :: cs => if c == 10 || c == 0 then c :: cs else dropCommentBody cs

theorem dropCommentBody_length_le (l : List Nat) :
    (dropCommentBody l).length ≤ l.length := by
  induction l with
  | nil => simp [dropCommentBody]
  | cons c cs ih =>
    simp only [dropCommentBody]
    split
    · simp
    · exact Nat.le_succ_of_le ih

/-- Whitespace and `#`-comment skipping of the current lexer's `NextToken`. -/
def skipWsNew (l : List Nat) : List Nat :=
  match l with
  | [] => []
  | c :: cs =>
    if isSpaceB c then skipWsNew cs
    else if c == 35 then skipWsNew (dropCommentBody cs)
    else c :: cs
termination_by l.length
decreasing_by
  all_goals have := dropCommentBody_length_le cs
  all_goals simp
  all_goals omega

/-- The dispatch of `(*Lexer).NextToken` of src/unnamed/part_002 after
whitespace/comment skipping. -/
def nextTokenNewCore : List Nat → Token × List Nat
  | [] => (⟨.EOF, []⟩, [])
  | c :: cs =>
    if c == 124 then
      match cs with
      | c2 :: cs2 => if c2 == 124 then (⟨.OR, [124, 124]⟩, cs2) else (⟨.PIPE, [c]⟩, cs)
      | [] => (⟨.PIPE, [c]⟩, [])
    else if c == 38 then
      match cs with
      | c2 :: cs2 => if c2 == 38 then (⟨.AND, [38, 38]⟩, cs2) else (⟨.ILLEGAL, [c]⟩, cs)
      | [] => (⟨.ILLEGAL, [c]⟩, [])
    else if c == 46 then (⟨.FULLSTOP, [c]⟩, cs)
    else if c == 126 then (⟨.TILDE, [c]⟩, cs)
    else if c == 36 then (⟨.DOLLAR, [c]⟩, cs)
    else if c == 47 then (⟨.FSLASH, [c]⟩, cs)
    else if c == 123 then (⟨.LBRACE, [c]⟩, cs)
    else if c == 125 then (⟨.RBRACE, [c]⟩, cs)
    else if c == 40 then (⟨.LPAREN, [c]⟩, cs)
    else if c == 41 then (⟨.RPAREN, [c]⟩, cs)
    else if c == 91 then (⟨.LBRACKET, [c]⟩, cs)
    else if c == 93 then (⟨.RBRACKET, [c]⟩, cs)
    else if c == 44 then (⟨.COMMA, [c]⟩, cs)
    else if c == 58 then (⟨.COLON, [c]⟩, cs)
    else if c == 43 then (⟨.PLUS, [c]⟩, cs)
    else if c == 45 then (⟨.MINUS, [c]⟩, cs)
    else if c == 42 then (⟨.ASTERISK, [c]⟩, cs)
    else if c == 37 then (⟨.PERCENT, [c]⟩, cs)
    else if c == 61 then
      match cs with
      | c2 :: cs2 =>
        if c2 == 61 then (⟨.EQ, [61, 61]⟩, cs2)
        else if c2 == 126 then (⟨.REGEX_MATCH, [61, 126]⟩, cs2)
        else (⟨.ASSIGN, [c]⟩, cs)
      | [] => (⟨.ASSIGN, [c]⟩, [])
    else if c == 33 then
      match cs with
      | c2 :: cs2 => if c2 == 61 then (⟨.NOT_EQ, [33, 61]⟩, cs2) else (⟨.NOT, [c]⟩, cs)
      | [] => (⟨.NOT, [c]⟩, [])
    else if c == 62 then
      match cs with
      | c2 :: cs2 =>
        if c2 == 62 then (⟨.INTO, [62, 62]⟩, cs2)
        else if c2 == 61 then (⟨.GTE, [62, 61]⟩, cs2)
        else (⟨.GT, [c]⟩, cs)
      | [] => (⟨.GT, [c]⟩, [])
    else if c == 60 then
      match cs with
      | c2 :: cs2 =>
        if c2 == 60 then (⟨.OUT, [60, 60]⟩, cs2)
        else if c2 == 61 then (⟨.LTE, [60, 61]⟩, cs2)
        else (⟨.LT, [c]⟩, cs)
      | [] => (⟨.LT, [c]⟩, [])
    else if c == 34 then lexString 34 cs
    else if c == 39 then lexString 39 cs
    else if c == 0 then (⟨.EOF, []⟩, c :: cs)
    else if isDigitB c then
      let r := spanWhile isDigitB (c :: cs)
      (⟨.INTEGER, r.1⟩, r.2)
    else if isLetterB c || c == 95 then
      let r := spanWhile isAlphanumericB (c :: cs)
      match lookupTokenMap r.1 with
      | some tt => (⟨tt, r.1⟩, r.2)
      | none => (⟨.IDENT, r.1⟩, r.2)
    else (⟨.ILLEGAL, [c]⟩, cs)

/-- `(*Lexer).NextToken` of src/unnamed/part_002 on the remaining input. -/
def nextTokenNew (l : List Nat) : Token × List Nat :=
  nextTokenNewCore (skipWsNew l)

/-! ## AST (src/ast/ast.go) -/

/-- `ast.CommandType`. -/
inductive CommandType where
  | CMD_LIST | CMD_REMOVE | CMD_CHANGEDIR | CMD_REMOVEDIR | CMD_MAKEDIR | CMD_WHOAMI
  | CMD_CURRENTDIR | CMD_MAKEFILE | CMD_OUTPUT | CMD_PRINT | CMD_SHOW | CMD_CLEAR
  | CMD_TILDE | CMD_EXTERNAL
deriving DecidableEq, Repr

/-- `ast.RedirectionType`.  `REDIR_NONE` is the zero value `""` that
`parseRedirectionExpression` would leave in place if it were reached with a
token that is none of `> >> < <<` (it never is: only those four are
registered as infix handlers that build a redirection). -/
inductive RedirectionType where
  | REDIR_OUTPUT | REDIR_APPEND | REDIR_INPUT | REDIR_HEREDOC | REDIR_NONE
deriving DecidableEq, Repr

/-- `ast.Expression` variants.  `nilExpr` models a nil `ast.Expression`
interface value, which parser functions return on errors. -/
inductive Expr where
  | Identifier (value : String)
  | PathExpression (value : String)
  | IntegerLiteral (value : Int)
  | StringLiteral (value : String)
  | BooleanLiteral (value : Bool)
  | VariableReference (name : String)
  | Command (type : CommandType) (name : String) (arguments : List Expr)
  | PipeExpression (left right : Expr)
  | RedirectionExpression (type : RedirectionType) (command : Expr) (target : Expr)
  | InfixExpression (left : Expr) (operator : String) (right : Expr)
  | PrefixExpression (operator : String) (right : Expr)
  | CallExpression (function : String) (arguments : List Expr)
  | ArrayLiteral (elements : List Expr) (typeHint : String)
  | DictLiteral (pairs : List (Expr × Expr))
  | IndexExpression (left index : Expr)
  | nilExpr

/-- `ast.Statement` variants.  Go's `*ast.BlockStatement` is its list of
statements; a nil alternative/default block is `none`. -/
inductive Stmt where
  | ExpressionStatement (expression : Expr)
  | AssignmentStatement (name : String) (value : Expr)
  | ForStatement (loopVar : String) (iterable : Expr) (body : List Stmt)
  | IfStatement (condition : Expr) (consequence : List Stmt) (alternative : Option (List Stmt))
  | BreakStatement
  | ContinueStatement
  | FunctionStatement (name : String) (parameters : List String) (body : List Stmt)
  | ReturnStatement (value : Option Expr)
  | SwitchStatement (value : Expr) (cases : List (List Expr × List Stmt))
      (dflt : Option (List Stmt))

/-! ## The Pratt parser (src/unnamed/part_005)

The parser is modelled over the token stream produced by the lexer it was
written against (src/lexer/lexer.go, which emits GREATER/LESS for single
`>`/`<` — exactly the token kinds this parser registers redirection handlers
for).  All parser functions take a fuel argument, decreased on every call;
fuel exhaustion returns a neutral value and never occurs for the concrete
inputs in the theorems below.  Parse errors are accumulated in
`PState.errors`; their message text is abbreviated and not load-bearing. -/

def eofToken : Token := ⟨.EOF, []⟩

/-- `parser.Parser`'s mutable cursor state: `curToken`, `peekToken`, the
not-yet-read tokens, and the accumulated errors. -/
structure PState where
  curToken : Token
  peekToken : Token
  toks : List Token
  errors : List String
deriving Repr

/-- `(*Parser).nextToken`: shift `peekToken` into `curToken` and pull the next
token from the lexer (EOF forever once exhausted). -/
def pNextToken (p : PState) : PState :=
  { curToken := p.peekToken
    peekToken := p.toks.headD eofToken
    toks := p.toks.tail
    errors := p.errors }

/-- `parser.New`: prime `curToken`/`peekToken` with two `nextToken` calls. -/
def newParser (ts : List Token) : PState :=
  { curToken := ts.headD eofToken
    peekToken := (ts.drop 1).headD eofToken
    toks := ts.drop 2
    errors := [] }

/-- Precedence constants `LOWEST < REDIRECT < PIPE < PREFIX < COMMAND`
(the fourth one is the Go source's `PREFIX`, for `$`). -/
def precLOWEST : Nat := 1
def precREDIRECT : Nat := 2
def precPIPE : Nat := 3
def precVARREF : Nat := 4
def precCOMMAND : Nat := 5

/-- The `precedences` map of part_005. -/
def precedencesMap : TokenType → Option Nat
  | .PIPE => some precPIPE
  | .GREATER => some precREDIRECT
  | .INTO => some precREDIRECT
  | .LESS => some precREDIRECT
  | .OUT => some precREDIRECT
  | _ => none

/-- `(*Parser).peekPrecedence`. -/
def peekPrecedence (p : PState) : Nat :=
  (precedencesMap p.peekToken.type).getD precLOWEST

/-- `(*Parser).curPrecedence`. -/
def curPrecedence (p : PState) : Nat :=
  (precedencesMap p.curToken.type).getD precLOWEST

/-- `tokenTypeToCommandType`. -/
def tokenTypeToCommandType : TokenType → CommandType
  | .LIST => .CMD_LIST
  | .REMOVE => .CMD_REMOVE
  | .CHANGEDIR => .CMD_CHANGEDIR
  | .REMOVEDIR => .CMD_REMOVEDIR
  | .MAKEDIR => .CMD_MAKEDIR
  | .WHOAMI => .CMD_WHOAMI
  | .CURRENTDIR => .CMD_CURRENTDIR
  | .MAKEFILE => .CMD_MAKEFILE
  | .OUTPUT => .CMD_OUTPUT
  | .PRINT => .CMD_PRINT
  | _ => .CMD_EXTERNAL

/-- `(*Parser).isArgumentToken`. -/
def isArgumentToken : TokenType → Bool
  | .IDENT | .STRING | .INTEGER | .DOLLAR | .FULLSTOP | .FSLASH | .TILDE => true
  | _ => false

/-- `(*Parser).isPathToken`. -/
def isPathToken : TokenType → Bool
  | .IDENT | .FULLSTOP | .FSLASH => true
  | _ => false

/-- The prefix-handler registrations of `parser.New`. -/
inductive PrefixKind where
  | identOrCommand | integerLit | stringLit | varRef | path | tilde
deriving DecidableEq, Repr

/-- The infix-handler registrations of `parser.New`. -/
inductive InfixKind where
  | pipe | redirection
deriving DecidableEq, Repr

def prefixFns : TokenType → Option PrefixKind
  | .IDENT => some .identOrCommand
  | .INTEGER => some .integerLit
  | .STRING => some .stringLit
  | .DOLLAR => some .varRef
  | .FULLSTOP => some .path
  | .FSLASH => some .path
  | .TILDE => some .tilde
  | _ => none

def infixFns : TokenType → Option InfixKind
  | .PIPE => some .pipe
  | .GREATER => some .redirection
  | .INTO => some .redirection
  | .LESS => some .redirection
  | .OUT => some .redirection
  | _ => none

/-- Value of a run of digits in the given base (`none` on an out-of-base digit). -/
def digitsVal (base : Nat) (acc : Nat) : List Nat → Option Nat
  | [] => some acc
  | c :: cs =>
    if decide (48 ≤ c) && decide (c < 48 + base) then
      digitsVal base (acc * base + (c - 48)) cs
    else none

/-- `strconv.ParseInt(s, 0, 64)` restricted to the digit-run literals the lexer
produces: a leading zero selects octal, otherwise decimal; int64 overflow is
an error. -/
def parseIntLit (l : List Nat) : Option Int :=
  match l with
  | [] => none
  | c :: cs =>
    let v? :=
      if c == 48 then
        match cs with
        | [] => some 0
        | _ => digitsVal 8 0 cs
      else digitsVal 10 0 (c :: cs)
    match v? with
    | none => none
    | some v => if decide (v < 2 ^ 63) then some (Int.ofNat v) else none

mutual

/-- `(*Parser).parseExpression`: one prefix-led expression, then the Pratt
fold loop. -/
def parseExpression (fuel : Nat) (prec : Nat) (p : PState) : Expr × PState :=
  match fuel with
  | 0 => (.nilExpr, p)
  | fuel + 1 =>
    match prefixFns p.curToken.type with
    | none =>
      (.nilExpr, { p with errors := p.errors ++ ["no prefix parse function found"] })
    | some pf =>
      let r := runPrefixFn fuel pf p
      parseExprLoop fuel prec r.1 r.2

/-- The loop `for !p.peekTokenIs(EOF) && precedence < p.peekPrecedence()`. -/
def parseExprLoop (fuel : Nat) (prec : Nat) (leftExp : Expr) (p : PState) : Expr × PState :=
  match fuel with
  | 0 => (leftExp, p)
  | fuel + 1 =>
    if !(p.peekToken.type == .EOF) && decide (prec < peekPrecedence p) then
      match infixFns p.peekToken.type with
      | none => (leftExp, p)
      | some k =>
        let p := pNextToken p
        let r := runInfixFn fuel k leftExp p
        parseExprLoop fuel prec r.1 r.2
    else (leftExp, p)

/-- Dispatch of a registered prefix handler. -/
def runPrefixFn (fuel : Nat) (k : PrefixKind) (p : PState) : Expr × PState :=
  match fuel with
  | 0 => (.nilExpr, p)
  | fuel + 1 =>
    match k with
    | .identOrCommand => parseIdentifierOrCommand fuel p
    | .integerLit => parseIntegerLiteral fuel p
    | .stringLit => parseStringLiteral fuel p
    | .varRef => parseVariableReference fuel p
    | .path => parsePath fuel p
    | .tilde => parseTilde fuel p

/-- Dispatch of a registered infix handler. -/
def runInfixFn (fuel : Nat) (k : InfixKind) (left : Expr) (p : PState) : Expr × PState :=
  match fuel with
  | 0 => (.nilExpr, p)
  | fuel + 1 =>
    match k with
    | .pipe => parsePipeExpression fuel left p
    | .redirection => parseRedirectionExpression fuel left p

/-- `(*Parser).parseIdentifierOrCommand`. -/
def parseIdentifierOrCommand (fuel : Nat) (p : PState) : Expr × PState :=
  match fuel with
  | 0 => (.nilExpr, p)
  | fuel + 1 =>
    match lookupTokenMap p.curToken.literal with
    | some cmdType => parseCommand fuel cmdType p
    | none =>
      if p.peekToken.type == .FSLASH || p.peekToken.type == .FULLSTOP then
        parsePathFromIdent fuel p
      else (.Identifier (strB p.curToken.literal), p)

/-- `(*Parser).parseCommand`. -/
def parseCommand (fuel : Nat) (cmdTokenType : TokenType) (p : PState) : Expr × PState :=
  match fuel with
  | 0 => (.nilExpr, p)
  | fuel + 1 =>
    let name := strB p.curToken.literal
    let ctype := tokenTypeToCommandType cmdTokenType
    let r := parseCommandArguments fuel p
    (.Command ctype name r.1, r.2)

/-- `(*Parser).parseCommandArguments`: greedy while the next token is an
argument-starting kind. -/
def parseCommandArguments (fuel : Nat) (p : PState) : List Expr × PState :=
  match fuel with
  | 0 => ([], p)
  | fuel + 1 =>
    if isArgumentToken p.peekToken.type then
      let p := pNextToken p
      let ar :=
        if p.curToken.type == .DOLLAR then
          let r := parseVariableReference fuel p
          (some r.1, r.2)
        else if p.curToken.type == .STRING then
          let r := parseStringLiteral fuel p
          (some r.1, r.2)
        else if p.curToken.type == .INTEGER then
          let r := parseIntegerLiteral fuel p
          (some r.1, r.2)
        else if p.curToken.type == .FULLSTOP || p.curToken.type == .FSLASH ||
            p.curToken.type == .TILDE then
          let r := parsePath fuel p
          (some r.1, r.2)
        else if p.curToken.type == .IDENT then
          if p.peekToken.type == .FSLASH || p.peekToken.type == .FULLSTOP then
            let r := parsePathFromIdent fuel p
            (some r.1, r.2)
          else (some (.Identifier (strB p.curToken.literal)), p)
        else (none, p)
      let r := parseCommandArguments fuel ar.2
      ((match ar.1 with | some a => [a] | none => []) ++ r.1, r.2)
    else ([], p)

/-- `(*Parser).parseIntegerLiteral`. -/
def parseIntegerLiteral (fuel : Nat) (p : PState) : Expr × PState :=
  match fuel with
  | 0 => (.nilExpr, p)
  | _ + 1 =>
    match parseIntLit p.curToken.literal with
    | some v => (.IntegerLiteral v, p)
    | none =>
      (.nilExpr, { p with errors := p.errors ++ ["could not parse integer literal"] })

/-- `(*Parser).parseStringLiteral`. -/
def parseStringLiteral (fuel : Nat) (p : PState) : Expr × PState :=
  match fuel with
  | 0 => (.nilExpr, p)
  | _ + 1 => (.StringLiteral (strB p.curToken.literal), p)

/-- The token-folding loop shared by `parsePath` and `parsePathFromIdent`,
with the `lastWasExtension` flag. -/
def parsePathLoop (fuel : Nat) (pathStr : List Nat) (lastWasExtension : Bool)
    (p : PState) : List Nat × PState :=
  match fuel with
  | 0 => (pathStr, p)
  | fuel + 1 =>
    if isPathToken p.peekToken.type then
      if lastWasExtension && !(p.peekToken.type == .FSLASH) then (pathStr, p)
      else
        let p := pNextToken p
        let pathStr' := pathStr ++ p.curToken.literal
        let lastWasExt' := p.curToken.type == .IDENT &&
          decide (pathStr'.length > 1) &&
          (pathStr'.get? (pathStr'.length - p.curToken.literal.length - 1) == some 46)
        parsePathLoop fuel pathStr' lastWasExt' p
    else (pathStr, p)

/-- `(*Parser).parsePath`. -/
def parsePath (fuel : Nat) (p : PState) : Expr × PState :=
  match fuel with
  | 0 => (.nilExpr, p)
  | fuel + 1 =>
    let r := parsePathLoop fuel p.curToken.literal false p
    (.PathExpression (strB r.1), r.2)

/-- `(*Parser).parsePathFromIdent` (same folding, starting at an identifier). -/
def parsePathFromIdent (fuel : Nat) (p : PState) : Expr × PState :=
  match fuel with
  | 0 => (.nilExpr, p)
  | fuel + 1 =>
    let r := parsePathLoop fuel p.curToken.literal false p
    (.PathExpression (strB r.1), r.2)

/-- `(*Parser).parseTilde`: `~/`-path or the zero-argument home command. -/
def parseTilde (fuel : Nat) (p : PState) : Expr × PState :=
  match fuel with
  | 0 => (.nilExpr, p)
  | fuel + 1 =>
    if p.peekToken.type == .FSLASH then parsePath fuel p
    else (.Command .CMD_TILDE (strB p.curToken.literal) [], p)

/-- `(*Parser).parseVariableReference`. -/
def parseVariableReference (fuel : Nat) (p : PState) : Expr × PState :=
  match fuel with
  | 0 => (.nilExpr, p)
  | _ + 1 =>
    if !(p.peekToken.type == .IDENT) then
      (.nilExpr, { p with errors := p.errors ++ ["expected identifier after $"] })
    else
      let p := pNextToken p
      (.VariableReference (strB p.curToken.literal), p)

/-- `(*Parser).parsePipeExpression`. -/
def parsePipeExpression (fuel : Nat) (left : Expr) (p : PState) : Expr × PState :=
  match fuel with
  | 0 => (.nilExpr, p)
  | fuel + 1 =>
    let prec := curPrecedence p
    let p := pNextToken p
    let r := parseExpression fuel prec p
    (.PipeExpression left r.1, r.2)

/-- `(*Parser).parseRedirectionExpression`. -/
def parseRedirectionExpression (fuel : Nat) (left : Expr) (p : PState) : Expr × PState :=
  match fuel with
  | 0 => (.nilExpr, p)
  | fuel + 1 =>
    let rt : RedirectionType :=
      match p.curToken.type with
      | .GREATER => .REDIR_OUTPUT
      | .INTO => .REDIR_APPEND
      | .LESS => .REDIR_INPUT
      | .OUT => .REDIR_HEREDOC
      | _ => .REDIR_NONE
    let p := pNextToken p
    let r := parseRedirectionTarget fuel p
    (.RedirectionExpression rt left r.1, r.2)

/-- `(*Parser).parseRedirectionTarget`: restricted grammar, never a command. -/
def parseRedirectionTarget (fuel : Nat) (p : PState) : Expr × PState :=
  match fuel with
  | 0 => (.nilExpr, p)
  | fuel + 1 =>
    match p.curToken.type with
    | .IDENT =>
      if p.peekToken.type == .FSLASH || p.peekToken.type == .FULLSTOP then
        parsePathFromIdent fuel p
      else (.Identifier (strB p.curToken.literal), p)
    | .FULLSTOP => parsePath fuel p
    | .FSLASH => parsePath fuel p
    | .TILDE => parsePath fuel p
    | .STRING => parseStringLiteral fuel p
    | .DOLLAR => parseVariableReference fuel p
    | _ =>
      (.nilExpr, { p with errors := p.errors ++ ["unexpected token in redirection target"] })

end

/-- `(*Parser).parseExpressionStatement` (and `parseStatement`, which just
forwards to it in part_005). -/
def parseExpressionStatement (fuel : Nat) (p : PState) : Stmt × PState :=
  match fuel with
  | 0 => (.ExpressionStatement .nilExpr, p)
  | fuel + 1 =>
    let r := parseExpression fuel precLOWEST p
    (.ExpressionStatement r.1, r.2)

/-- `(*Parser).ParseProgram`: statements until EOF. -/
def parseProgramLoop (fuel : Nat) (p : PState) : List Stmt × PState :=
  match fuel with
  | 0 => ([], p)
  | fuel + 1 =>
    if p.curToken.type == .EOF then ([], p)
    else
      let r := parseExpressionStatement fuel p
      let p' := pNextToken r.2
      let rest := parseProgramLoop fuel p'
      (r.1 :: rest.1, rest.2)

/-- Tokenize a whole input with the old lexer (fuel-bounded; `NextToken`
consumes at least one byte before any non-EOF token, so `length + 1` fuel
always suffices). -/
def tokenizeOld (fuel : Nat) (l : List Nat) : List Token :=
  match fuel with
  | 0 => []
  | fuel + 1 =>
    let r := nextTokenOld l
    if r.1.type == .EOF then [r.1] else r.1 :: tokenizeOld fuel r.2

/-- End-to-end: lex a line with src/lexer/lexer.go and parse it with the
part_005 parser. -/
def parseLineOld (input : String) : List Stmt :=
  let ts := tokenizeOld (input.length + 1) (bs input)
  (parseProgramLoop 64 (newParser ts)).1

/-! ## Lexer lemmas -/

theorem spanWhile_append_all (p : Nat → Bool) (xs rest : List Nat)
    (hall : ∀ x ∈ xs, p x = true)
    (hrest : ∀ r ∈ rest.take 1, p r = false) :
    spanWhile p (xs ++ rest) = (xs, rest) := by
  induction xs with
  | nil =>
    cases rest with
    | nil => rfl
    | cons r rs =>
      have : p r = false := hrest r (by simp)
      simp [spanWhile, this]
  | cons c cs ih =>
    have hc : p c = true := hall c (by simp)
    have ih' := ih (fun x hx => hall x (by simp [hx]))
    simp [spanWhile, hc, ih']

theorem takeStr_no_stop (q : Nat) (cs : List Nat)
    (h : ∀ b ∈ cs, b ≠ q ∧ b ≠ 0) :
    takeStr q cs = (cs, []) := by
  induction cs with
  | nil => rfl
  | cons c cs ih =>
    have hc := h c (by simp)
    have ih' := ih (fun b hb => h b (by simp [hb]))
    simp [takeStr, hc.1, hc.2, ih']

theorem takeStr_finds (q : Nat) (content rest : List Nat)
    (h : ∀ b ∈ content, b ≠ q ∧ b ≠ 0) :
    takeStr q (content ++ q :: rest) = (content, q :: rest) := by
  induction content with
  | nil => simp [takeStr]
  | cons c cs ih =>
    have hc := h c (by simp)
    have ih' := ih (fun b hb => h b (by simp [hb]))
    simp [takeStr, hc.1, hc.2, ih']

/-- A byte that starts an identifier (letter or underscore) sends the current
lexer's `NextToken` dispatch into the identifier/keyword branch. -/
theorem nextTokenNewCore_word (c : Nat) (cs : List Nat)
    (h : isLetterB c = true ∨ c = 95) :
    nextTokenNewCore (c :: cs) =
      (let r := spanWhile isAlphanumericB (c :: cs)
       match lookupTokenMap r.1 with
       | some tt => (⟨tt, r.1⟩, r.2)
       | none => (⟨.IDENT, r.1⟩, r.2)) := by
  have hc : (65 ≤ c ∧ c ≤ 90) ∨ (97 ≤ c ∧ c ≤ 122) ∨ c = 170 ∨ c = 181 ∨ c = 186 ∨
      (192 ≤ c ∧ c ≤ 214) ∨ (216 ≤ c ∧ c ≤ 246) ∨ (248 ≤ c ∧ c ≤ 255) ∨ c = 95 := by
    rcases h with h | h
    · simp only [isLetterB, Bool.or_eq_true, Bool.and_eq_true, decide_eq_true_eq,
        beq_iff_eq] at h
      tauto
    · tauto
  have hb : ∀ k : Nat, c ≠ k → (c == k) = false := fun k hk => by
    simpa using hk
  have edig : isDigitB c = false := by
    simp only [isDigitB, Bool.and_eq_false_iff, decide_eq_false_iff_not]
    omega
  have elet : (isLetterB c || c == 95) = true := by
    rcases h with h | h <;> simp [h]
  simp only [nextTokenNewCore, hb 124 (by omega), hb 38 (by omega), hb 46 (by omega),
    hb 126 (by omega), hb 36 (by omega), hb 47 (by omega), hb 123 (by omega),
    hb 125 (by omega), hb 40 (by omega), hb 41 (by omega), hb 91 (by omega),
    hb 93 (by omega), hb 44 (by omega), hb 58 (by omega), hb 43 (by omega),
    hb 45 (by omega), hb 42 (by omega), hb 37 (by omega), hb 61 (by omega),
    hb 33 (by omega), hb 62 (by omega), hb 60 (by omega), hb 34 (by omega),
    hb 39 (by omega), hb 0 (by omega), edig, elet, Bool.false_eq_true, if_false, if_true]

/-- A letter/underscore byte is not skipped by the whitespace/comment skipper. -/
theorem skipWsNew_word (c : Nat) (l : List Nat)
    (h : isLetterB c = true ∨ c = 95) :
    skipWsNew (c :: l) = c :: l := by
  have hc : (65 ≤ c ∧ c ≤ 90) ∨ (97 ≤ c ∧ c ≤ 122) ∨ c = 170 ∨ c = 181 ∨ c = 186 ∨
      (192 ≤ c ∧ c ≤ 214) ∨ (216 ≤ c ∧ c ≤ 246) ∨ (248 ≤ c ∧ c ≤ 255) ∨ c = 95 := by
    rcases h with h | h
    · simp only [isLetterB, Bool.or_eq_true, Bool.and_eq_true, decide_eq_true_eq,
        beq_iff_eq] at h
      tauto
    · tauto
  have hsp : isSpaceB c = false := by
    simp only [isSpaceB, Bool.or_eq_false_iff, beq_eq_false_iff_ne, ne_eq]
    omega
  have h35 : (c == 35) = false := by
    simpa using (by omega : c ≠ 35)
  rw [skipWsNew]
  simp [hsp, h35]

/-- A byte that is not whitespace and not `#` is not skipped. -/
theorem skipWsNew_no_ws (c : Nat) (l : List Nat)
    (h1 : isSpaceB c = false) (h2 : (c == 35) = false) :
    skipWsNew (c :: l) = c :: l := by
  rw [skipWsNew]
  simp [h1, h2]

/-- A quote byte sends the current lexer's dispatch into the string branch. -/
theorem nextTokenNewCore_strBranch (q : Nat) (l : List Nat) (hq : q = 34 ∨ q = 39) :
    nextTokenNewCore (q :: l) = lexString q l := by
  rcases hq with rfl | rfl <;> simp [nextTokenNewCore]

/-! ## Claim theorems: lexer and parser -/

/-- **C1**: the Pratt loop makes chained pipes left-associative and binds pipe
tighter than redirection: `"ls | print | output"` parses as the pipe of the
pipe `(ls | print)` with the `output` command, and `"ls | print > output.txt"`
parses as an output redirection whose command is the pipe `(ls | print)` and
whose target is the path `output.txt`. -/
theorem C1_pipe_chain_and_redirection_parse :
    parseLineOld "ls | print | output" =
      [.ExpressionStatement (.PipeExpression
        (.PipeExpression (.Command .CMD_LIST "ls" []) (.Command .CMD_PRINT "print" []))
        (.Command .CMD_OUTPUT "output" []))] ∧
    parseLineOld "ls | print > output.txt" =
      [.ExpressionStatement (.RedirectionExpression .REDIR_OUTPUT
        (.PipeExpression (.Command .CMD_LIST "ls" []) (.Command .CMD_PRINT "print" []))
        (.PathExpression "output.txt"))] :=
  ⟨rfl, rfl⟩

/-- **C6**: `"rm file1 file2"` parses to one expression statement holding a
REMOVE command named `rm` with exactly the two identifier arguments `file1`
and `file2`; and argument consumption stops at any token that is not an
argument-starting kind (operator, delimiter, or EOF). -/
theorem C6_rm_command_parse :
    (parseLineOld "rm file1 file2" =
      [.ExpressionStatement (.Command .CMD_REMOVE "rm"
        [.Identifier "file1", .Identifier "file2"])]) ∧
    (∀ (fuel : Nat) (p : PState), isArgumentToken p.peekToken.type = false →
      parseCommandArguments (fuel + 1) p = ([], p)) := by
  refine ⟨rfl, fun fuel p h => ?_⟩
  rw [parseCommandArguments]
  simp [h]

/-- Witness for C6: with a PIPE as the next token, no arguments are consumed. -/
theorem C6_rm_command_parse_witness :
    parseCommandArguments 5 (newParser [⟨.PIPE, [124]⟩]) =
      ([], newParser [⟨.PIPE, [124]⟩]) :=
  C6_rm_command_parse.2 4 (newParser [⟨.PIPE, [124]⟩]) rfl

/-- **C5**: when the next input is a word (letter/underscore first, then
letters/digits/underscores, not continued by another word byte), the current
lexer's `NextToken` extracts the whole word and re-tags it with the keyword
table `TokenMap`, falling back to IDENT with the same literal. -/
theorem C5_lexer_keyword_retag (c : Nat) (cs rest : List Nat)
    (hstart : isLetterB c = true ∨ c = 95)
    (hall : ∀ b ∈ c :: cs, isAlphanumericB b = true)
    (hrest : ∀ r ∈ rest.take 1, isAlphanumericB r = false) :
    nextTokenNew ((c :: cs) ++ rest) =
      (⟨(lookupTokenMap (c :: cs)).getD .IDENT, c :: cs⟩, rest) := by
  have hspan : spanWhile isAlphanumericB ((c :: cs) ++ rest) = (c :: cs, rest) :=
    spanWhile_append_all _ _ _ hall hrest
  rw [nextTokenNew]
  rw [show (c :: cs) ++ rest = c :: (cs ++ rest) from rfl] at hspan ⊢
  rw [skipWsNew_word c _ hstart, nextTokenNewCore_word c _ hstart]
  simp only [hspan]
  cases hlk : lookupTokenMap (c :: cs) <;> simp [hlk]

/-- Witness for C5: `"for x"` yields the keyword token FOR with literal
`for`; `"foo x"`-like words that miss the table yield IDENT. -/
theorem C5_lexer_keyword_retag_witness :
    nextTokenNew [102, 111, 114, 32, 120] =
      (⟨.FOR, [102, 111, 114]⟩, [32, 120]) := by
  have h := C5_lexer_keyword_retag 102 [111, 114] [32, 120]
    (Or.inl (by decide)) (by decide) (by decide)
  simpa using h

/-- **C7**: a string literal opened with `"` or `'` that reaches the end of
input without its closing delimiter lexes to an ILLEGAL token carrying the
partial content (the lexer is a total function: it cannot panic or throw);
a properly terminated literal lexes to a STRING token carrying the content
between the delimiters. -/
theorem C7_unterminated_string (q : Nat) (cs content rest : List Nat)
    (hq : q = 34 ∨ q = 39)
    (hnc : ∀ b ∈ cs, b ≠ q ∧ b ≠ 0)
    (hcontent : ∀ b ∈ content, b ≠ q ∧ b ≠ 0) :
    nextTokenNew (q :: cs) = (⟨.ILLEGAL, cs⟩, []) ∧
    nextTokenNew (q :: (content ++ q :: rest)) = (⟨.STRING, content⟩, rest) := by
  have hq1 : isSpaceB q = false := by rcases hq with rfl | rfl <;> decide
  have hq2 : (q == 35) = false := by rcases hq with rfl | rfl <;> decide
  constructor
  · rw [nextTokenNew, skipWsNew_no_ws _ _ hq1 hq2, nextTokenNewCore_strBranch q _ hq]
    simp [lexString, takeStr_no_stop q cs hnc]
  · rw [nextTokenNew, skipWsNew_no_ws _ _ hq1 hq2, nextTokenNewCore_strBranch q _ hq]
    simp [lexString, takeStr_finds q content rest hcontent]

/-- Witness for C7 at the concrete inputs `"hi` (unterminated) and `"hi"x`. -/
theorem C7_unterminated_string_witness :
    nextTokenNew [34, 104, 105] = (⟨.ILLEGAL, [104, 105]⟩, []) ∧
    nextTokenNew [34, 104, 105, 34, 120] = (⟨.STRING, [104, 105]⟩, [120]) :=
  C7_unterminated_string 34 [104, 105] [104, 105] [120]
    (Or.inl rfl) (by decide) (by decide)

/-! ## `path/filepath` (Unix): `Clean`, `Join`, `IsAbs` -/

/-- One element of `filepath.Clean`'s processing, on a reversed output stack:
empty and `.` elements vanish; `..` pops a poppable element, is dropped at the
root, and is kept when nothing can be popped in a relative path. -/
def cleanStep (rooted : Bool) (acc : List String) (seg : String) : List String :=
  if seg = "" || seg = "." then acc
  else if seg = ".." then
    match acc with
    | a :: rest => if a = ".." then ".." :: a :: rest else rest
    | [] => if rooted then [] else [".."]
  else seg :: acc

/-- `filepath.Clean` (Unix). -/
def goClean (p : String) : String :=
  if p = "" then "."
  else
    let rooted := match p.toList with | '/' :: _ => true | _ => false
    let segs := p.splitOn "/"
    let parts := (segs.foldl (cleanStep rooted) []).reverse
    if rooted then "/" ++ String.intercalate "/" parts
    else if parts = [] then "."
    else String.intercalate "/" parts

/-- `filepath.Join(a, b)` (Unix): skip empty elements, join with `/`, Clean;
all-empty input gives the empty string. -/
def goJoin (a b : String) : String :=
  if a = "" then (if b = "" then "" else goClean b)
  else goClean (a ++ "/" ++ b)

/-- `filepath.IsAbs` (Unix). -/
def goIsAbs (p : String) : Bool :=
  match p.toList with | '/' :: _ => true | _ => false

/-! ## Evaluator data model (src/evaluator/evaluator.go, the full version) -/

/-- The evaluator's dynamically-typed `Value`: Go `string`, `int64` (with the
defensively-handled `int` collapsed into it), `bool`, `[]Value`,
`map[string]Value` (as an association list), and nil. -/
inductive Value where
  | vstr (s : String)
  | vint (i : Int)
  | vbool (b : Bool)
  | varr (elems : List Value)
  | vdict (pairs : List (String × Value))
  | vnil

/-- `evaluator.Function`: parameters, body, value-snapshot closure env. -/
structure FuncDef where
  parameters : List String
  body : List Stmt
  env : List (String × Value)

/-- Where `e.stdout` currently points: the process stdout, an in-memory pipe
buffer, or a file opened by a redirection. -/
inductive OutStream where
  | proc
  | buf (content : String)
  | file (path : String)

/-- Where `e.stdin` currently points: the process stdin, or in-memory data
(a pipe buffer, or the contents of a file opened by an input redirection). -/
inductive InStream where
  | proc
  | data (content : String)

/-- Log entries for world-mutating external calls and writes to redirected
files (reads are modelled as pure oracle lookups). -/
inductive ExtCall where
  | mkdirAll (path : String)
  | removeAll (path : String)
  | removeOne (path : String)
  | createFile (path : String)
  | openWrite (path : String)
  | fileWrite (path : String) (data : String)

/-- Results of the external collaborators (OS user/home, environment,
filesystem, regex engine), fixed for the duration of one evaluation.
The `Option String` results carry `some errorMessage` on failure. -/
structure Ext where
  userHomeDir : Except String String
  getenv : String → String
  readDir : String → Except String (List (String × Bool))
  statIsDir : String → Except String Bool
  mkdirAll : String → Option String
  removeAll : String → Option String
  removeOne : String → Option String
  createFile : String → Option String
  openWrite : String → Option String
  openRead : String → Except String String
  readFileAll : String → Except String String
  regexCompileErr : String → Option String
  regexMatches : String → String → Bool
  regexFindAll : String → String → List String
  regexReplaceAll : String → String → String → String

/-- `evaluator.Evaluator`'s mutable state, plus the two observables of the
embedding: everything written to the real stdout, and the log of mutating
external calls. -/
structure EvalState where
  cwd : String
  env : List (String × String)
  vars : List (String × Value)
  functions : List (String × FuncDef)
  stdout : OutStream
  stdin : InStream
  procOut : String
  trace : List ExtCall

/-- Go map read `m[k]`. -/
def mapGet {α : Type} (m : List (String × α)) (k : String) : Option α :=
  (m.find? (fun kv => kv.1 == k)).map (·.2)

/-- Go map write `m[k] = v`. -/
def mapSet {α : Type} (m : List (String × α)) (k : String) (v : α) : List (String × α) :=
  match m with
  | [] => [(k, v)]
  | (k', v') :: rest => if k' == k then (k, v) :: rest else (k', v') :: mapSet rest k v

/-- `fmt.Fprint(e.stdout, s)`. -/
def writeOut (st : EvalState) (s : String) : EvalState :=
  match st.stdout with
  | .proc => { st with procOut := st.procOut ++ s }
  | .buf c => { st with stdout := .buf (c ++ s) }
  | .file p => { st with trace := st.trace ++ [.fileWrite p s] }

def logCall (st : EvalState) (c : ExtCall) : EvalState :=
  { st with trace := st.trace ++ [c] }

/-- Control-flow signals and runtime errors, all travelling on Go's `error`
channel: the sentinels `errBreak`/`errContinue`, the `*returnValue` wrapper,
and ordinary error messages. -/
inductive Signal where
  | brk
  | cont
  | ret (v : Value)
  | err (msg : String)

/-- Outcome of one evaluator step: a normal Go return (state plus value or
error), a host-level panic, or exhaustion of the embedding's fuel (an
artifact of the embedding, impossible in any theorem below). -/
inductive Outcome (α : Type) where
  | out (s : EvalState) (r : Except Signal α)
  | panicked (msg : String)
  | fuelOut

/-- State-and-error monad of the evaluator. -/
abbrev EvalM (α : Type) := EvalState → Outcome α

instance : Monad EvalM where
  pure a := fun s => .out s (.ok a)
  bind m f := fun s =>
    match m s with
    | .out s' (.ok a) => f a s'
    | .out s' (.error g) => .out s' (.error g)
    | .panicked msg => .panicked msg
    | .fuelOut => .fuelOut

def throwSig {α : Type} (g : Signal) : EvalM α := fun s => .out s (.error g)
def throwErr {α : Type} (msg : String) : EvalM α := throwSig (.err msg)
def panicM {α : Type} (msg : String) : EvalM α := fun _ => .panicked msg
def noFuel {α : Type} : EvalM α := fun _ => .fuelOut
def modifyS (f : EvalState → EvalState) : EvalM Unit := fun s => .out (f s) (.ok ())

/-! ## Pure conversions -/

mutual
/-- `(*Evaluator).valueToString` (the `%q` of the dict case is rendered
without escape processing; no claim depends on it). -/
def valueToString : Value → String
  | .vstr s => s
  | .vint i => toString i
  | .vbool b => if b then "true" else "false"
  | .varr elems => "[" ++ String.intercalate ", " (valueToStringList elems) ++ "]"
  | .vdict pairs => "\x7b" ++ String.intercalate ", " (valueToStringPairs pairs) ++ "\x7d"
  | .vnil => ""

def valueToStringList : List Value → List String
  | [] => []
  | v :: vs => valueToString v :: valueToStringList vs

def valueToStringPairs : List (String × Value) → List String
  | [] => []
  | (k, v) :: ps => ("\"" ++ k ++ "\": " ++ valueToString v) :: valueToStringPairs ps
end

/-- `strconv.ParseInt(s, 10, 64)`: optional sign, nonempty digits, int64
range check. -/
def parseInt64 (s : String) : Option Int :=
  let p :=
    match s.toList with
    | '-' :: rest => (true, rest)
    | '+' :: rest => (false, rest)
    | rest => (false, rest)
  if p.2 = [] then none
  else if p.2.all (fun c => decide ('0' ≤ c) && decide (c ≤ '9')) then
    let v : Nat := p.2.foldl (fun acc c => acc * 10 + (c.toNat - 48)) 0
    if p.1 then (if decide (v ≤ 2 ^ 63) then some (-(v : Int)) else none)
    else (if decide (v < 2 ^ 63) then some (v : Int) else none)
  else none

/-- `(*Evaluator).valueToInt64` (error messages abbreviated). -/
def valueToInt64 : Value → Except String Int
  | .vint i => .ok i
  | .vstr s =>
    match parseInt64 s with
    | some i => .ok i
    | none => .error "cannot parse integer"
  | _ => .error "cannot convert to integer"

/-- `(*Evaluator).valueToBool`: 0, "", empty array and nil are false; a dict
value is a non-nil interface, hence true. -/
def valueToBool : Value → Bool
  | .vbool b => b
  | .vint i => !(i == 0)
  | .vstr s => !(s == "")
  | .varr elems => decide (0 < elems.length)
  | .vdict _ => true
  | .vnil => false

/-- `(*Evaluator).valuesEqual`. -/
def valuesEqual (a b : Value) : Bool :=
  match valueToInt64 a, valueToInt64 b with
  | .ok x, .ok y => x == y
  | _, _ => valueToString a == valueToString b

/-- `unicode.IsSpace` on a char (Latin-1 portion, as in the lexer). -/
def charIsSpace (c : Char) : Bool := isSpaceB c.toNat

/-- `strings.TrimSpace`. -/
def goTrimSpace (s : String) : String :=
  String.mk (((s.toList.dropWhile charIsSpace).reverse.dropWhile charIsSpace).reverse)

/-- `strings.Split` (empty separator splits into characters). -/
def goSplit (s sep : String) : List String :=
  if sep = "" then s.toList.map (fun c => String.mk [c])
  else s.splitOn sep

/-- `strings.Contains`. -/
def goContains (s sub : String) : Bool :=
  sub == "" || decide (2 ≤ (s.splitOn sub).length)

def goToUpper (s : String) : String := String.mk (s.toList.map Char.toUpper)
def goToLower (s : String) : String := String.mk (s.toList.map Char.toLower)

/-! ## Path resolution (claim C4) -/

/-- `(*Evaluator).resolvePath`: empty → cwd; `~` → home (cwd when the OS
cannot report a home); `~/rest` → `Clean(Join(home, rest))` (falling back to
the cwd-join when home fails); absolute → `Clean(path)`; otherwise
`Clean(Join(cwd, path))`.  `path[:2] == "~/"` and `path[2:]` are byte
slices; the guard characters are ASCII, so char-level take/drop agree. -/
def resolvePath (E : Ext) (cwd : String) (path : String) : String :=
  if path.length = 0 then cwd
  else if path = "~" then
    match E.userHomeDir with
    | .error _ => cwd
    | .ok home => home
  else if decide (2 ≤ path.toList.length) && decide (path.toList.take 2 = ['~', '/']) then
    match E.userHomeDir with
    | .error _ => goClean (goJoin cwd path)
    | .ok home => goClean (goJoin home (String.mk (path.toList.drop 2)))
  else if goIsAbs path then goClean path
  else goClean (goJoin cwd path)

/-- Claim C4's rules, stated the way the specification words them, for a home
directory the OS reports successfully: empty resolves to cwd; exactly `~`
to home; a string of the form `~/rest` to home joined with rest and cleaned;
an absolute path is cleaned; anything else is joined with cwd and cleaned. -/
def resolvePathSpec (cwd home : String) (path : String) : String :=
  match path.toList with
  | [] => cwd
  | ['~'] => home
  | '~' :: '/' :: rest => goClean (goJoin home (String.mk rest))
  | _ =>
    if goIsAbs path then goClean path
    else goClean (goJoin cwd path)

/-- `(*Evaluator).expandVariable`: local overlay first, then the OS env. -/
def expandVariable (E : Ext) (s : EvalState) (name : String) : String :=
  match mapGet s.env name with
  | some v => v
  | none => E.getenv name

/-! ## The exec command implementations (no recursion into the evaluator) -/

/-- `(*Evaluator).execList`. -/
def execList (E : Ext) (args : List String) : EvalM String := fun s =>
  let dir := match args with
    | [] => s.cwd
    | a0 :: _ => resolvePath E s.cwd a0
  match E.readDir dir with
  | .error emsg => .out s (.error (.err ("ls: " ++ emsg)))
  | .ok entries =>
    let result := String.join (entries.map (fun en =>
      (if en.2 then en.1 ++ "/" else en.1) ++ "\n"))
    .out (writeOut s result) (.ok result)

/-- `(*Evaluator).execChangeDir`. -/
def execChangeDir (E : Ext) (args : List String) : EvalM String := fun s =>
  match args with
  | [] =>
    match E.userHomeDir with
    | .error emsg => .out s (.error (.err ("cd: " ++ emsg)))
    | .ok home => .out { s with cwd := home } (.ok "")
  | a0 :: _ =>
    let target := resolvePath E s.cwd a0
    match E.statIsDir target with
    | .error emsg => .out s (.error (.err ("cd: " ++ emsg)))
    | .ok isDir =>
      if isDir then .out { s with cwd := target } (.ok "")
      else .out s (.error (.err ("cd: " ++ a0 ++ ": not a directory")))

/-- `(*Evaluator).execCurrentDir`. -/
def execCurrentDir : EvalM String := fun s =>
  .out (writeOut s (s.cwd ++ "\n")) (.ok s.cwd)

def mkdirLoop (E : Ext) : List String → EvalM String
  | [] => fun s => .out s (.ok "")
  | a :: rest => fun s =>
    let path := resolvePath E s.cwd a
    let s := logCall s (.mkdirAll path)
    match E.mkdirAll path with
    | some emsg => .out s (.error (.err ("mkdir: " ++ emsg)))
    | none => mkdirLoop E rest s

/-- `(*Evaluator).execMakeDir`. -/
def execMakeDir (E : Ext) (args : List String) : EvalM String :=
  match args with
  | [] => throwErr "mkdir: missing operand"
  | _ => mkdirLoop E args

def rmdirLoop (E : Ext) : List String → EvalM String
  | [] => fun s => .out s (.ok "")
  | a :: rest => fun s =>
    let path := resolvePath E s.cwd a
    let s := logCall s (.removeOne path)
    match E.removeOne path with
    | some emsg => .out s (.error (.err ("rmdir: " ++ emsg)))
    | none => rmdirLoop E rest s

/-- `(*Evaluator).execRemoveDir` (`os.Remove`). -/
def execRemoveDir (E : Ext) (args : List String) : EvalM String :=
  match args with
  | [] => throwErr "rmdir: missing operand"
  | _ => rmdirLoop E args

def rmLoop (E : Ext) : List String → EvalM String
  | [] => fun s => .out s (.ok "")
  | a :: rest => fun s =>
    let path := resolvePath E s.cwd a
    let s := logCall s (.removeAll path)
    match E.removeAll path with
    | some emsg => .out s (.error (.err ("rm: " ++ emsg)))
    | none => rmLoop E rest s

/-- `(*Evaluator).execRemove` (`os.RemoveAll`). -/
def execRemove (E : Ext) (args : List String) : EvalM String :=
  match args with
  | [] => throwErr "rm: missing operand"
  | _ => rmLoop E args

def mkfileLoop (E : Ext) : List String → EvalM String
  | [] => fun s => .out s (.ok "")
  | a :: rest => fun s =>
    let path := resolvePath E s.cwd a
    let s := logCall s (.createFile path)
    match E.createFile path with
    | some emsg => .out s (.error (.err ("mkfile: " ++ emsg)))
    | none => mkfileLoop E rest s

/-- `(*Evaluator).execMakeFile`. -/
def execMakeFile (E : Ext) (args : List String) : EvalM String :=
  match args with
  | [] => throwErr "mkfile: missing operand"
  | _ => mkfileLoop E args

/-- `(*Evaluator).execWhoami` (`os.Getenv` directly, not the overlay). -/
def execWhoami (E : Ext) : EvalM String := fun s =>
  let username := if E.getenv "USER" == "" then E.getenv "USERNAME" else E.getenv "USER"
  .out (writeOut s (username ++ "\n")) (.ok username)

/-- `(*Evaluator).execHome`. -/
def execHome (E : Ext) : EvalM String := fun s =>
  match E.userHomeDir with
  | .error emsg => .out s (.error (.err ("home: " ++ emsg)))
  | .ok home => .out (writeOut s (home ++ "\n")) (.ok home)

/-- `(*Evaluator).execPrint` (lines 1256-1271): with a non-process stdin the
arguments are ignored; the whole input stream is read (draining it), written
to the active output stream, and returned as the result.  Otherwise the
arguments are joined with spaces and printed with a newline. -/
def execPrint (args : List String) : EvalM String := fun s =>
  match s.stdin with
  | .data content =>
    let s := { s with stdin := .data "" }
    .out (writeOut s content) (.ok content)
  | .proc =>
    let result := String.intercalate " " args ++ "\n"
    .out (writeOut s result) (.ok result)

/-- `(*Evaluator).execOutput`: same as print. -/
def execOutput (args : List String) : EvalM String :=
  execPrint args

def showRead (E : Ext) (cwd : String) : List String → Except String String
  | [] => .ok ""
  | a :: rest =>
    let path := resolvePath E cwd a
    match E.readFileAll path with
    | .error emsg => .error ("show: " ++ emsg)
    | .ok content =>
      match showRead E cwd rest with
      | .error e => .error e
      | .ok restContent => .ok (content ++ restContent)

/-- `(*Evaluator).execShow`. -/
def execShow (E : Ext) (args : List String) : EvalM String := fun s =>
  match args with
  | [] => .out s (.error (.err "show: missing file argument"))
  | _ =>
    match showRead E s.cwd args with
    | .error e => .out s (.error (.err e))
    | .ok result => .out (writeOut s result) (.ok result)

/-- `(*Evaluator).execClear`: ANSI clear codes to the active output. -/
def execClear : EvalM String := fun s =>
  .out (writeOut s "\x1b[2J\x1b[H") (.ok "")

/-- The non-short-circuit part of `(*Evaluator).evalInfixExpression`, acting
on the two evaluated operands: string-biased `+`, then numeric operations
when both operands convert (Go `/`/`%` truncate toward zero), then the
string-comparison fallback with `=~` bound to the host regex engine. -/
def infixOpResult (E : Ext) (l r : Value) (op : String) : Except Signal Value :=
  let leftIsString := match l with | .vstr _ => true | _ => false
  let rightIsString := match r with | .vstr _ => true | _ => false
  if op = "+" && (leftIsString || rightIsString) then
    .ok (.vstr (valueToString l ++ valueToString r))
  else
    let numeric :=
      match valueToInt64 l, valueToInt64 r with
      | .ok x, .ok y =>
        if op = "+" then some (.ok (.vint (x + y)))
        else if op = "-" then some (.ok (.vint (x - y)))
        else if op = "*" then some (.ok (.vint (x * y)))
        else if op = "/" then
          some (if y == 0 then .error (.err "division by zero")
                else .ok (.vint (Int.tdiv x y)))
        else if op = "%" then
          some (if y == 0 then .error (.err "modulo by zero")
                else .ok (.vint (Int.tmod x y)))
        else if op = "==" then some (.ok (.vbool (x == y)))
        else if op = "!=" then some (.ok (.vbool (!(x == y))))
        else if op = "<" then some (.ok (.vbool (decide (x < y))))
        else if op = ">" then some (.ok (.vbool (decide (y < x))))
        else if op = "<=" then some (.ok (.vbool (decide (x ≤ y))))
        else if op = ">=" then some (.ok (.vbool (decide (y ≤ x))))
        else none
      | _, _ => none
    match numeric with
    | some res => res
    | none =>
      let ls := valueToString l
      let rs := valueToString r
      if op = "==" then .ok (.vbool (ls == rs))
      else if op = "!=" then .ok (.vbool (!(ls == rs)))
      else if op = "+" then .ok (.vstr (ls ++ rs))
      else if op = "=~" then
        match E.regexCompileErr rs with
        | some emsg => .error (.err ("invalid regex: " ++ emsg))
        | none => .ok (.vbool (E.regexMatches rs ls))
      else .error (.err ("unknown operator: " ++ op))

/-! ## The tree-walking evaluator

All functions take a fuel argument consumed on every call; `fuelOut` marks
exhaustion and never occurs in the theorems below (they supply enough fuel).
The external world `E` is fixed. -/

section Evaluator

variable (E : Ext)

mutual

/-- `(*Evaluator).Eval`: statements in order; the first error (or uncaught
control-flow signal) is returned to the caller. -/
def evalProgram (fuel : Nat) (stmts : List Stmt) : EvalM Unit :=
  match fuel with
  | 0 => noFuel
  | fuel + 1 =>
    match stmts with
    | [] => pure ()
    | st :: rest => do
      evalStatement fuel st
      evalProgram fuel rest

/-- `(*Evaluator).evalStatement`. -/
def evalStatement (fuel : Nat) (st : Stmt) : EvalM Unit :=
  match fuel with
  | 0 => noFuel
  | fuel + 1 =>
    match st with
    | .ExpressionStatement e => do
      let _ ← evalExpressionValue fuel e
      pure ()
    | .AssignmentStatement name value => evalAssignment fuel name value
    | .ForStatement v iter body => evalForStatement fuel v iter body
    | .IfStatement c cq alt => evalIfStatement fuel c cq alt
    | .BreakStatement => throwSig .brk
    | .ContinueStatement => throwSig .cont
    | .FunctionStatement name params body => evalFunctionStatement fuel name params body
    | .ReturnStatement v => evalReturnStatement fuel v
    | .SwitchStatement v cs d => evalSwitchStatement fuel v cs d

/-- `(*Evaluator).evalExpressionValue`. -/
def evalExpressionValue (fuel : Nat) (e : Expr) : EvalM Value :=
  match fuel with
  | 0 => noFuel
  | fuel + 1 =>
    match e with
    | .Command t n args => do
      let r ← evalCommand fuel t n args
      pure (.vstr r)
    | .PipeExpression l r => do
      let v ← evalPipe fuel l r
      pure (.vstr v)
    | .RedirectionExpression t c tg => do
      let v ← evalRedirection fuel t c tg
      pure (.vstr v)
    | .Identifier v => fun s =>
      match mapGet s.vars v with
      | some val => .out s (.ok val)
      | none => .out s (.ok (.vstr v))
    | .PathExpression v => fun s => .out s (.ok (.vstr (resolvePath E s.cwd v)))
    | .StringLiteral v => pure (.vstr v)
    | .IntegerLiteral v => pure (.vint v)
    | .VariableReference name => fun s => .out s (.ok (.vstr (expandVariable E s name)))
    | .InfixExpression l op r => evalInfixExpression fuel l op r
    | .CallExpression f args => evalCallExpression fuel f args
    | .ArrayLiteral elems th => evalArrayLiteral fuel elems th
    | .IndexExpression l i => evalIndexExpression fuel l i
    | .BooleanLiteral b => pure (.vbool b)
    | .PrefixExpression op r => evalPrefixExpression fuel op r
    | .DictLiteral pairs => evalDictLiteral fuel pairs
    | .nilExpr => throwErr "unknown expression type"

/-- `(*Evaluator).evalExpression`: evaluate and stringify. -/
def evalExpression (fuel : Nat) (e : Expr) : EvalM String :=
  match fuel with
  | 0 => noFuel
  | fuel + 1 => do
    let v ← evalExpressionValue fuel e
    pure (valueToString v)

/-- `(*Evaluator).evalCommand`: arguments to strings, then dispatch.
`CMD_EXTERNAL` (and any command type outside the switch) hits the
"unknown command" default. -/
def evalCommand (fuel : Nat) (ctype : CommandType) (name : String)
    (argExprs : List Expr) : EvalM String :=
  match fuel with
  | 0 => noFuel
  | fuel + 1 => do
    let args ← evalArgStrings fuel argExprs
    match ctype with
    | .CMD_LIST => execList E args
    | .CMD_CHANGEDIR => execChangeDir E args
    | .CMD_CURRENTDIR => execCurrentDir
    | .CMD_MAKEDIR => execMakeDir E args
    | .CMD_REMOVEDIR => execRemoveDir E args
    | .CMD_REMOVE => execRemove E args
    | .CMD_MAKEFILE => execMakeFile E args
    | .CMD_WHOAMI => execWhoami E
    | .CMD_PRINT => execPrint args
    | .CMD_OUTPUT => execOutput args
    | .CMD_SHOW => execShow E args
    | .CMD_CLEAR => execClear
    | .CMD_TILDE => execHome E
    | .CMD_EXTERNAL => throwErr ("unknown command: " ++ name)

/-- The argument loop of `evalCommand`. -/
def evalArgStrings (fuel : Nat) (exprs : List Expr) : EvalM (List String) :=
  match fuel with
  | 0 => noFuel
  | fuel + 1 =>
    match exprs with
    | [] => pure []
    | e :: rest => do
      let v ← evalExpression fuel e
      let vs ← evalArgStrings fuel rest
      pure (v :: vs)

/-- `(*Evaluator).evalPipe`: left into a fresh buffer (restoring stdout even
on error), then right with stdin set to that buffer (restoring stdin). -/
def evalPipe (fuel : Nat) (left right : Expr) : EvalM String :=
  match fuel with
  | 0 => noFuel
  | fuel + 1 => fun s =>
    let oldStdout := s.stdout
    match evalExpression fuel left { s with stdout := .buf "" } with
    | .out s1 (.error g) => .out { s1 with stdout := oldStdout } (.error g)
    | .out s1 (.ok _) =>
      let leftOutput := match s1.stdout with | .buf c => c | _ => ""
      let s2 := { s1 with stdout := oldStdout }
      let oldStdin := s2.stdin
      match evalExpression fuel right { s2 with stdin := .data leftOutput } with
      | .out s3 r => .out { s3 with stdin := oldStdin } r
      | .panicked m => .panicked m
      | .fuelOut => .fuelOut
    | .panicked m => .panicked m
    | .fuelOut => .fuelOut

/-- `(*Evaluator).evalRedirection`. -/
def evalRedirection (fuel : Nat) (rt : RedirectionType) (command target : Expr) :
    EvalM String :=
  match fuel with
  | 0 => noFuel
  | fuel + 1 => do
    let targetStr ← evalExpression fuel target
    fun s =>
      let targetPath := resolvePath E s.cwd targetStr
      match rt with
      | .REDIR_OUTPUT =>
        let s := logCall s (.createFile targetPath)
        (match E.createFile targetPath with
         | some emsg =>
           .out s (.error (.err ("cannot create file " ++ targetStr ++ ": " ++ emsg)))
         | none =>
           let oldStdout := s.stdout
           match evalExpression fuel command { s with stdout := .file targetPath } with
           | .out s1 r => .out { s1 with stdout := oldStdout } r
           | .panicked m => .panicked m
           | .fuelOut => .fuelOut)
      | .REDIR_APPEND =>
        let s := logCall s (.openWrite targetPath)
        (match E.openWrite targetPath with
         | some emsg =>
           .out s (.error (.err ("cannot open file " ++ targetStr ++ ": " ++ emsg)))
         | none =>
           let oldStdout := s.stdout
           match evalExpression fuel command { s with stdout := .file targetPath } with
           | .out s1 r => .out { s1 with stdout := oldStdout } r
           | .panicked m => .panicked m
           | .fuelOut => .fuelOut)
      | .REDIR_INPUT =>
        (match E.openRead targetPath with
         | .error emsg =>
           .out s (.error (.err ("cannot open file " ++ targetStr ++ ": " ++ emsg)))
         | .ok content =>
           let oldStdin := s.stdin
           match evalExpression fuel command { s with stdin := .data content } with
           | .out s1 r => .out { s1 with stdin := oldStdin } r
           | .panicked m => .panicked m
           | .fuelOut => .fuelOut)
      | .REDIR_HEREDOC => .out s (.error (.err "heredoc not yet implemented"))
      | .REDIR_NONE => .out s (.ok "")

/-- `(*Evaluator).evalAssignment`. -/
def evalAssignment (fuel : Nat) (name : String) (value : Expr) : EvalM Unit :=
  match fuel with
  | 0 => noFuel
  | fuel + 1 => do
    let v ← evalExpressionValue fuel value
    modifyS (fun s => { s with vars := mapSet s.vars name v })

/-- `(*Evaluator).evalForStatement` (lines 1366-1402): only a `[]Value`
iterable is iterable here (`[]int64` has no producer in this evaluator). -/
def evalForStatement (fuel : Nat) (v : String) (iterable : Expr)
    (body : List Stmt) : EvalM Unit :=
  match fuel with
  | 0 => noFuel
  | fuel + 1 => do
    let iterVal ← evalExpressionValue fuel iterable
    match iterVal with
    | .varr items => runForLoop fuel v body items
    | _ => throwErr "cannot iterate over value"

/-- The iteration loop of `evalForStatement` (lines 1386-1399): `errBreak`
halts the loop without error, `errContinue` proceeds to the next item, any
other error (including a return signal) propagates. -/
def runForLoop (fuel : Nat) (v : String) (body : List Stmt)
    (items : List Value) : EvalM Unit :=
  match fuel with
  | 0 => noFuel
  | fuel + 1 =>
    match items with
    | [] => pure ()
    | item :: rest => fun s =>
      match evalBlockStatement fuel body { s with vars := mapSet s.vars v item } with
      | .out s1 (.error .brk) => .out s1 (.ok ())
      | .out s1 (.error .cont) => runForLoop fuel v body rest s1
      | .out s1 (.error g) => .out s1 (.error g)
      | .out s1 (.ok _) => runForLoop fuel v body rest s1
      | .panicked m => .panicked m
      | .fuelOut => .fuelOut

/-- `(*Evaluator).evalIfStatement`. -/
def evalIfStatement (fuel : Nat) (cond : Expr) (cq : List Stmt)
    (alt : Option (List Stmt)) : EvalM Unit :=
  match fuel with
  | 0 => noFuel
  | fuel + 1 => do
    let c ← evalExpressionValue fuel cond
    if valueToBool c then evalBlockStatement fuel cq
    else
      match alt with
      | some a => evalBlockStatement fuel a
      | none => pure ()

/-- `(*Evaluator).evalBlockStatement`. -/
def evalBlockStatement (fuel : Nat) (stmts : List Stmt) : EvalM Unit :=
  match fuel with
  | 0 => noFuel
  | fuel + 1 =>
    match stmts with
    | [] => pure ()
    | st :: rest => do
      evalStatement fuel st
      evalBlockStatement fuel rest

/-- `(*Evaluator).evalPrefixExpression`. -/
def evalPrefixExpression (fuel : Nat) (op : String) (right : Expr) : EvalM Value :=
  match fuel with
  | 0 => noFuel
  | fuel + 1 => do
    let r ← evalExpressionValue fuel right
    if op = "!" then pure (.vbool (!(valueToBool r)))
    else throwErr ("unknown prefix operator: " ++ op)

/-- `(*Evaluator).evalInfixExpression` (lines 1486-1597): `&&` and `||`
short-circuit before the right operand is ever evaluated; everything else
evaluates both operands and applies `infixOpResult`. -/
def evalInfixExpression (fuel : Nat) (left : Expr) (op : String) (right : Expr) :
    EvalM Value :=
  match fuel with
  | 0 => noFuel
  | fuel + 1 =>
    if op = "&&" then do
      let l ← evalExpressionValue fuel left
      if !(valueToBool l) then pure (.vbool false)
      else do
        let r ← evalExpressionValue fuel right
        pure (.vbool (valueToBool r))
    else if op = "||" then do
      let l ← evalExpressionValue fuel left
      if valueToBool l then pure (.vbool true)
      else do
        let r ← evalExpressionValue fuel right
        pure (.vbool (valueToBool r))
    else do
      let l ← evalExpressionValue fuel left
      let r ← evalExpressionValue fuel right
      fun s =>
        match infixOpResult E l r op with
        | .ok v => .out s (.ok v)
        | .error g => .out s (.error g)

/-- `(*Evaluator).evalFunctionStatement`: register the function with a
by-value snapshot of the current variables. -/
def evalFunctionStatement (fuel : Nat) (name : String) (params : List String)
    (body : List Stmt) : EvalM Unit :=
  match fuel with
  | 0 => noFuel
  | _ + 1 =>
    modifyS (fun s =>
      { s with functions := mapSet s.functions name ⟨params, body, s.vars⟩ })

/-- `(*Evaluator).evalReturnStatement`: wrap the value in the return signal. -/
def evalReturnStatement (fuel : Nat) (value : Option Expr) : EvalM Unit :=
  match fuel with
  | 0 => noFuel
  | fuel + 1 =>
    match value with
    | none => throwSig (.ret .vnil)
    | some e => do
      let v ← evalExpressionValue fuel e
      throwSig (.ret v)

/-- `(*Evaluator).evalCallExpression`: user functions first, then builtins. -/
def evalCallExpression (fuel : Nat) (fname : String) (args : List Expr) :
    EvalM Value :=
  match fuel with
  | 0 => noFuel
  | fuel + 1 => fun s =>
    match mapGet s.functions fname with
    | some fn => callUserFunction fuel fn args s
    | none =>
      (if fname = "range" then builtinRange fuel args
       else if fname = "append" then builtinAppend fuel args
       else if fname = "len" then builtinLen fuel args
       else if fname = "split" then builtinSplit fuel args
       else if fname = "trim" then builtinTrim fuel args
       else if fname = "upper" then builtinUpper fuel args
       else if fname = "lower" then builtinLower fuel args
       else if fname = "contains" then builtinContains fuel args
       else if fname = "replace" then builtinReplace fuel args
       else if fname = "slice" then builtinSlice fuel args
       else if fname = "pop" then builtinPop fuel args
       else if fname = "push" then builtinAppend fuel args
       else if fname = "first" then builtinFirst fuel args
       else if fname = "last" then builtinLast fuel args
       else if fname = "join" then builtinJoin fuel args
       else if fname = "regex_match" then builtinRegexMatch fuel args
       else if fname = "regex_find" then builtinRegexFind fuel args
       else if fname = "regex_replace" then builtinRegexReplace fuel args
       else throwErr ("unknown function: " ++ fname)) s

/-- `(*Evaluator).callUserFunction`: arity check, fresh env from the closure
snapshot, arguments evaluated in the caller's env, body run, caller's env
restored on every path; a return signal becomes the call's value. -/
def callUserFunction (fuel : Nat) (fn : FuncDef) (args : List Expr) : EvalM Value :=
  match fuel with
  | 0 => noFuel
  | fuel + 1 => fun s =>
    if !(args.length == fn.parameters.length) then
      .out s (.error (.err "wrong number of arguments"))
    else
      let savedVars := s.vars
      match bindParams fuel fn.parameters args savedVars { s with vars := fn.env } with
      | .out s2 (.error g) => .out { s2 with vars := savedVars } (.error g)
      | .out s2 (.ok _) =>
        (match evalBlockStatement fuel fn.body s2 with
         | .out s3 r =>
           let s4 := { s3 with vars := savedVars }
           (match r with
            | .error (.ret v) => .out s4 (.ok v)
            | .error g => .out s4 (.error g)
            | .ok _ => .out s4 (.ok .vnil))
         | .panicked m => .panicked m
         | .fuelOut => .fuelOut)
      | .panicked m => .panicked m
      | .fuelOut => .fuelOut

/-- The parameter-binding loop of `callUserFunction`: each argument is
evaluated in the caller's (saved) environment. -/
def bindParams (fuel : Nat) (params : List String) (args : List Expr)
    (savedVars : List (String × Value)) : EvalM Unit :=
  match fuel with
  | 0 => noFuel
  | fuel + 1 =>
    match params, args with
    | p :: ps, a :: rest => fun s =>
      (match evalExpressionInEnv fuel a savedVars s with
       | .out s1 (.error g) => .out s1 (.error g)
       | .out s1 (.ok v) =>
         bindParams fuel ps rest savedVars { s1 with vars := mapSet s1.vars p v }
       | .panicked m => .panicked m
       | .fuelOut => .fuelOut)
    | _, _ => pure ()

/-- `evalExpressionInEnv`: evaluate under a specific variable environment,
restoring the previous one afterwards. -/
def evalExpressionInEnv (fuel : Nat) (e : Expr) (vars : List (String × Value)) :
    EvalM Value :=
  match fuel with
  | 0 => noFuel
  | fuel + 1 => fun s =>
    match evalExpressionValue fuel e { s with vars := vars } with
    | .out s1 r => .out { s1 with vars := s.vars } r
    | .panicked m => .panicked m
    | .fuelOut => .fuelOut

/-- `(*Evaluator).builtinLen` (Go `len` of a string counts bytes). -/
def builtinLen (fuel : Nat) (args : List Expr) : EvalM Value :=
  match fuel with
  | 0 => noFuel
  | fuel + 1 =>
    if !(args.length == 1) then throwErr "len() takes exactly 1 argument"
    else do
      let v ← evalExpressionValue fuel (args.headD .nilExpr)
      match v with
      | .vstr str => pure (.vint str.utf8ByteSize)
      | .varr elems => pure (.vint elems.length)
      | _ => throwErr "len() argument must be string or array"

/-- `(*Evaluator).builtinSplit`. -/
def builtinSplit (fuel : Nat) (args : List Expr) : EvalM Value :=
  match fuel with
  | 0 => noFuel
  | fuel + 1 =>
    if !(args.length == 2) then throwErr "split() takes exactly 2 arguments"
    else do
      let sv ← evalExpressionValue fuel (args.headD .nilExpr)
      match sv with
      | .vstr str => do
        let pv ← evalExpressionValue fuel ((args.drop 1).headD .nilExpr)
        match pv with
        | .vstr sep => pure (.varr ((goSplit str sep).map (.vstr ·)))
        | _ => throwErr "split() second argument must be a string"
      | _ => throwErr "split() first argument must be a string"

/-- `(*Evaluator).builtinTrim`. -/
def builtinTrim (fuel : Nat) (args : List Expr) : EvalM Value :=
  match fuel with
  | 0 => noFuel
  | fuel + 1 =>
    if !(args.length == 1) then throwErr "trim() takes exactly 1 argument"
    else do
      let v ← evalExpressionValue fuel (args.headD .nilExpr)
      match v with
      | .vstr str => pure (.vstr (goTrimSpace str))
      | _ => throwErr "trim() argument must be a string"

/-- `(*Evaluator).builtinUpper`. -/
def builtinUpper (fuel : Nat) (args : List Expr) : EvalM Value :=
  match fuel with
  | 0 => noFuel
  | fuel + 1 =>
    if !(args.length == 1) then throwErr "upper() takes exactly 1 argument"
    else do
      let v ← evalExpressionValue fuel (args.headD .nilExpr)
      match v with
      | .vstr str => pure (.vstr (goToUpper str))
      | _ => throwErr "upper() argument must be a string"

/-- `(*Evaluator).builtinLower`. -/
def builtinLower (fuel : Nat) (args : List Expr) : EvalM Value :=
  match fuel with
  | 0 => noFuel
  | fuel + 1 =>
    if !(args.length == 1) then throwErr "lower() takes exactly 1 argument"
    else do
      let v ← evalExpressionValue fuel (args.headD .nilExpr)
      match v with
      | .vstr str => pure (.vstr (goToLower str))
      | _ => throwErr "lower() argument must be a string"

/-- `(*Evaluator).builtinContains`. -/
def builtinContains (fuel : Nat) (args : List Expr) : EvalM Value :=
  match fuel with
  | 0 => noFuel
  | fuel + 1 =>
    if !(args.length == 2) then throwErr "contains() takes exactly 2 arguments"
    else do
      let sv ← evalExpressionValue fuel (args.headD .nilExpr)
      match sv with
      | .vstr str => do
        let bv ← evalExpressionValue fuel ((args.drop 1).headD .nilExpr)
        match bv with
        | .vstr sub => pure (.vbool (goContains str sub))
        | _ => throwErr "contains() second argument must be a string"
      | _ => throwErr "contains() first argument must be a string"

/-- `(*Evaluator).builtinReplace`. -/
def builtinReplace (fuel : Nat) (args : List Expr) : EvalM Value :=
  match fuel with
  | 0 => noFuel
  | fuel + 1 =>
    if !(args.length == 3) then throwErr "replace() takes exactly 3 arguments"
    else do
      let sv ← evalExpressionValue fuel (args.headD .nilExpr)
      match sv with
      | .vstr str => do
        let ov ← evalExpressionValue fuel ((args.drop 1).headD .nilExpr)
        match ov with
        | .vstr old => do
          let nv ← evalExpressionValue fuel ((args.drop 2).headD .nilExpr)
          match nv with
          | .vstr new => pure (.vstr (str.replace old new))
          | _ => throwErr "replace() third argument must be a string"
        | _ => throwErr "replace() second argument must be a string"
      | _ => throwErr "replace() first argument must be a string"

/-- `(*Evaluator).builtinSlice`. -/
def builtinSlice (fuel : Nat) (args : List Expr) : EvalM Value :=
  match fuel with
  | 0 => noFuel
  | fuel + 1 =>
    if !(decide (2 ≤ args.length) && decide (args.length ≤ 3)) then
      throwErr "slice() takes 2 or 3 arguments"
    else do
      let av ← evalExpressionValue fuel (args.headD .nilExpr)
      match av with
      | .varr arr => do
        let sv ← evalExpressionValue fuel ((args.drop 1).headD .nilExpr)
        match valueToInt64 sv with
        | .error _ => throwErr "slice() second argument must be an integer"
        | .ok start => do
          let endv ←
            if args.length == 3 then do
              let ev ← evalExpressionValue fuel ((args.drop 2).headD .nilExpr)
              match valueToInt64 ev with
              | .error _ => throwErr "slice() third argument must be an integer"
              | .ok e => pure e
            else pure (arr.length : Int)
          let start' := if start < 0 then 0 else start
          let end' := if (arr.length : Int) < endv then (arr.length : Int) else endv
          if end' < start' then pure (.varr [])
          else pure (.varr ((arr.drop start'.toNat).take (end' - start').toNat))
      | _ => throwErr "slice() first argument must be an array"

/-- `(*Evaluator).builtinPop` (lines 1955-1974): returns the last element of
a non-empty array; the argument value itself is not modified. -/
def builtinPop (fuel : Nat) (args : List Expr) : EvalM Value :=
  match fuel with
  | 0 => noFuel
  | fuel + 1 =>
    if !(args.length == 1) then throwErr "pop() takes exactly 1 argument"
    else do
      let v ← evalExpressionValue fuel (args.headD .nilExpr)
      match v with
      | .varr arr =>
        if arr.length == 0 then throwErr "pop() on empty array"
        else pure (arr.getLastD .vnil)
      | _ => throwErr "pop() argument must be an array"

/-- `(*Evaluator).builtinFirst`. -/
def builtinFirst (fuel : Nat) (args : List Expr) : EvalM Value :=
  match fuel with
  | 0 => noFuel
  | fuel + 1 =>
    if !(args.length == 1) then throwErr "first() takes exactly 1 argument"
    else do
      let v ← evalExpressionValue fuel (args.headD .nilExpr)
      match v with
      | .varr arr =>
        if arr.length == 0 then throwErr "first() on empty array"
        else pure (arr.headD .vnil)
      | _ => throwErr "first() argument must be an array"

/-- `(*Evaluator).builtinLast`. -/
def builtinLast (fuel : Nat) (args : List Expr) : EvalM Value :=
  match fuel with
  | 0 => noFuel
  | fuel + 1 =>
    if !(args.length == 1) then throwErr "last() takes exactly 1 argument"
    else do
      let v ← evalExpressionValue fuel (args.headD .nilExpr)
      match v with
      | .varr arr =>
        if arr.length == 0 then throwErr "last() on empty array"
        else pure (arr.getLastD .vnil)
      | _ => throwErr "last() argument must be an array"

/-- `(*Evaluator).builtinJoin`. -/
def builtinJoin (fuel : Nat) (args : List Expr) : EvalM Value :=
  match fuel with
  | 0 => noFuel
  | fuel + 1 =>
    if !(args.length == 2) then throwErr "join() takes exactly 2 arguments"
    else do
      let av ← evalExpressionValue fuel (args.headD .nilExpr)
      match av with
      | .varr arr => do
        let sv ← evalExpressionValue fuel ((args.drop 1).headD .nilExpr)
        match sv with
        | .vstr sep =>
          pure (.vstr (String.intercalate sep (arr.map valueToString)))
        | _ => throwErr "join() second argument must be a string"
      | _ => throwErr "join() first argument must be an array"

/-- `(*Evaluator).builtinRegexMatch` (operands go through `valueToString`). -/
def builtinRegexMatch (fuel : Nat) (args : List Expr) : EvalM Value :=
  match fuel with
  | 0 => noFuel
  | fuel + 1 =>
    if !(args.length == 2) then throwErr "regex_match() takes exactly 2 arguments"
    else do
      let tv ← evalExpressionValue fuel (args.headD .nilExpr)
      let pv ← evalExpressionValue fuel ((args.drop 1).headD .nilExpr)
      let text := valueToString tv
      let pattern := valueToString pv
      match E.regexCompileErr pattern with
      | some emsg => throwErr ("invalid regex: " ++ emsg)
      | none => pure (.vbool (E.regexMatches pattern text))

/-- `(*Evaluator).builtinRegexFind`. -/
def builtinRegexFind (fuel : Nat) (args : List Expr) : EvalM Value :=
  match fuel with
  | 0 => noFuel
  | fuel + 1 =>
    if !(args.length == 2) then throwErr "regex_find() takes exactly 2 arguments"
    else do
      let tv ← evalExpressionValue fuel (args.headD .nilExpr)
      let pv ← evalExpressionValue fuel ((args.drop 1).headD .nilExpr)
      let text := valueToString tv
      let pattern := valueToString pv
      match E.regexCompileErr pattern with
      | some emsg => throwErr ("invalid regex: " ++ emsg)
      | none => pure (.varr ((E.regexFindAll pattern text).map (.vstr ·)))

/-- `(*Evaluator).builtinRegexReplace`. -/
def builtinRegexReplace (fuel : Nat) (args : List Expr) : EvalM Value :=
  match fuel with
  | 0 => noFuel
  | fuel + 1 =>
    if !(args.length == 3) then throwErr "regex_replace() takes exactly 3 arguments"
    else do
      let tv ← evalExpressionValue fuel (args.headD .nilExpr)
      let pv ← evalExpressionValue fuel ((args.drop 1).headD .nilExpr)
      let rv ← evalExpressionValue fuel ((args.drop 2).headD .nilExpr)
      let text := valueToString tv
      let pattern := valueToString pv
      let replacement := valueToString rv
      match E.regexCompileErr pattern with
      | some emsg => throwErr ("invalid regex: " ++ emsg)
      | none => pure (.vstr (E.regexReplaceAll pattern replacement text))

/-- `(*Evaluator).builtinRange` (lines 2141-2161): the only guard is
convertibility to an integer; `make([]Value, n)` with a negative `n` is a
Go runtime panic, not a returned error. -/
def builtinRange (fuel : Nat) (args : List Expr) : EvalM Value :=
  match fuel with
  | 0 => noFuel
  | fuel + 1 =>
    if !(args.length == 1) then throwErr "range() takes exactly 1 argument"
    else do
      let v ← evalExpressionValue fuel (args.headD .nilExpr)
      match valueToInt64 v with
      | .error _ => throwErr "range() argument must be an integer"
      | .ok n =>
        if n < 0 then panicM "runtime error: makeslice: len out of range"
        else pure (.varr ((List.range n.toNat).map (fun i => .vint i)))

/-- `(*Evaluator).builtinAppend`: new array, input unchanged. -/
def builtinAppend (fuel : Nat) (args : List Expr) : EvalM Value :=
  match fuel with
  | 0 => noFuel
  | fuel + 1 =>
    if !(args.length == 2) then throwErr "append() takes exactly 2 arguments"
    else do
      let av ← evalExpressionValue fuel (args.headD .nilExpr)
      match av with
      | .varr arr => do
        let v ← evalExpressionValue fuel ((args.drop 1).headD .nilExpr)
        pure (.varr (arr ++ [v]))
      | _ => throwErr "append() first argument must be an array"

/-- `(*Evaluator).evalArrayLiteral`: a type hint means the empty array. -/
def evalArrayLiteral (fuel : Nat) (elems : List Expr) (typeHint : String) :
    EvalM Value :=
  match fuel with
  | 0 => noFuel
  | fuel + 1 =>
    if !(typeHint == "") then pure (.varr [])
    else do
      let vs ← evalExprList fuel elems
      pure (.varr vs)

/-- Element loop of `evalArrayLiteral`. -/
def evalExprList (fuel : Nat) (exprs : List Expr) : EvalM (List Value) :=
  match fuel with
  | 0 => noFuel
  | fuel + 1 =>
    match exprs with
    | [] => pure []
    | e :: rest => do
      let v ← evalExpressionValue fuel e
      let vs ← evalExprList fuel rest
      pure (v :: vs)

/-- `(*Evaluator).evalIndexExpression`: dict lookup first, then array with
bounds check, otherwise unsupported. -/
def evalIndexExpression (fuel : Nat) (left index : Expr) : EvalM Value :=
  match fuel with
  | 0 => noFuel
  | fuel + 1 => do
    let l ← evalExpressionValue fuel left
    let idx ← evalExpressionValue fuel index
    match l with
    | .vdict pairs =>
      (match mapGet pairs (valueToString idx) with
       | some v => pure v
       | none => throwErr ("key not found: " ++ valueToString idx))
    | .varr arr =>
      (match valueToInt64 idx with
       | .error _ => throwErr "array index must be an integer"
       | .ok i =>
         if i < 0 ∨ (arr.length : Int) ≤ i then throwErr "array index out of bounds"
         else pure (arr.getD i.toNat .vnil))
    | _ => throwErr "index operator not supported"

/-- `(*Evaluator).evalDictLiteral`. -/
def evalDictLiteral (fuel : Nat) (pairs : List (Expr × Expr)) : EvalM Value :=
  match fuel with
  | 0 => noFuel
  | fuel + 1 => do
    let d ← evalDictPairs fuel pairs []
    pure (.vdict d)

/-- Pair loop of `evalDictLiteral`. -/
def evalDictPairs (fuel : Nat) (pairs : List (Expr × Expr))
    (acc : List (String × Value)) : EvalM (List (String × Value)) :=
  match fuel with
  | 0 => noFuel
  | fuel + 1 =>
    match pairs with
    | [] => pure acc
    | (ke, ve) :: rest => do
      let k ← evalExpressionValue fuel ke
      let v ← evalExpressionValue fuel ve
      evalDictPairs fuel rest (mapSet acc (valueToString k) v)

/-- `(*Evaluator).evalSwitchStatement`. -/
def evalSwitchStatement (fuel : Nat) (value : Expr)
    (cases : List (List Expr × List Stmt)) (dflt : Option (List Stmt)) : EvalM Unit :=
  match fuel with
  | 0 => noFuel
  | fuel + 1 => do
    let sv ← evalExpressionValue fuel value
    runCases fuel sv cases dflt

/-- Clause loop of `evalSwitchStatement`: first matching case wins; the
default block only runs when no case matched. -/
def runCases (fuel : Nat) (sv : Value) (cases : List (List Expr × List Stmt))
    (dflt : Option (List Stmt)) : EvalM Unit :=
  match fuel with
  | 0 => noFuel
  | fuel + 1 =>
    match cases with
    | [] =>
      (match dflt with
       | some d => evalBlockStatement fuel d
       | none => pure ())
    | (vals, body) :: rest => do
      let matched ← runCaseVals fuel sv vals body
      if matched then pure () else runCases fuel sv rest dflt

/-- Value loop of one case clause (OR semantics): the first equal value runs
the clause body. -/
def runCaseVals (fuel : Nat) (sv : Value) (vals : List Expr)
    (body : List Stmt) : EvalM Bool :=
  match fuel with
  | 0 => noFuel
  | fuel + 1 =>
    match vals with
    | [] => pure false
    | ve :: rest => do
      let v ← evalExpressionValue fuel ve
      if valuesEqual sv v then do
        evalBlockStatement fuel body
        pure true
      else runCaseVals fuel sv rest body

end

end Evaluator

/-! ## Concrete collaborators and initial state for witnesses -/

/-- A fixed external world for concrete runs. -/
def extDefault : Ext :=
  { userHomeDir := .ok "/home/raven"
    getenv := fun _ => ""
    readDir := fun _ => .error "no such directory"
    statIsDir := fun _ => .error "no such file"
    mkdirAll := fun _ => none
    removeAll := fun _ => none
    removeOne := fun _ => none
    createFile := fun _ => none
    openWrite := fun _ => none
    openRead := fun _ => .error "no such file"
    readFileAll := fun _ => .error "no such file"
    regexCompileErr := fun _ => none
    regexMatches := fun _ _ => false
    regexFindAll := fun _ _ => []
    regexReplaceAll := fun _ _ _ => "" }

/-- A fresh evaluator state (`evaluator.New` with cwd `/tmp`). -/
def initState : EvalState :=
  { cwd := "/tmp", env := [], vars := [], functions := []
    stdout := .proc, stdin := .proc, procOut := "", trace := [] }

/-! ## Claim theorems: evaluator -/

/-- Unfolding of the monad's bind at a state. -/
theorem evalM_bind_apply {α β : Type} (m : EvalM α) (f : α → EvalM β) (s : EvalState) :
    (m >>= f) s =
      match m s with
      | .out s' (.ok a) => f a s'
      | .out s' (.error g) => .out s' (.error g)
      | .panicked msg => .panicked msg
      | .fuelOut => .fuelOut := rfl

/-- **C4**: `resolvePath` follows exactly the five specification rules
(empty → cwd; `~` → home; `~/rest` → clean(join(home, rest)); absolute →
clean; otherwise clean(join(cwd, path))) whenever the OS reports a home
directory. -/
theorem C4_resolvePath_rules (E : Ext) (home cwd p : String)
    (h : E.userHomeDir = .ok home) :
    resolvePath E cwd p = resolvePathSpec cwd home p := by
  obtain ⟨l⟩ := p
  have e0 : ((⟨l⟩ : String) = "") = (l = []) :=
    propext ⟨fun hh => congrArg String.data hh, fun hh => congrArg String.mk hh⟩
  have e1 : ((⟨l⟩ : String) = "~") = (l = ['~']) :=
    propext ⟨fun hh => congrArg String.data hh, fun hh => congrArg String.mk hh⟩
  unfold resolvePath resolvePathSpec goIsAbs
  simp only [String.toList, String.length, e0, e1, h]
  rcases l with _ | ⟨c, rest⟩
  · simp
  · by_cases hc : c = '~'
    · subst hc
      rcases rest with _ | ⟨c2, rest2⟩
      · simp
      · by_cases hc2 : c2 = '/'
        · subst hc2
          simp
        · simp [hc2]
    · simp [hc]

/-- Witness for C4: a `~/`-path with a `..` segment, resolved both ways. -/
theorem C4_resolvePath_rules_witness :
    resolvePath extDefault "/tmp" "~/x/../y" =
      resolvePathSpec "/tmp" "/home/raven" "~/x/../y" :=
  C4_resolvePath_rules extDefault "/home/raven" "/tmp" "~/x/../y" rfl

/-- **C3**: `&&` and `||` short-circuit.  `false && e` evaluates to `false`
with the state (output, command trace, variables) untouched — `e` is never
evaluated; `true || e` likewise evaluates to `true`; and when the left
operand does not decide the result (`true && e`, `false || e`), the right
operand is evaluated and its truthiness is the result. -/
theorem C3_short_circuit (E : Ext) (fuel : Nat) (e : Expr) (s : EvalState) :
    (evalExpressionValue E (fuel + 3)
        (.InfixExpression (.BooleanLiteral false) "&&" e) s =
      .out s (.ok (.vbool false))) ∧
    (evalExpressionValue E (fuel + 3)
        (.InfixExpression (.BooleanLiteral true) "||" e) s =
      .out s (.ok (.vbool true))) ∧
    (evalExpressionValue E (fuel + 3)
        (.InfixExpression (.BooleanLiteral true) "&&" e) s =
      match evalExpressionValue E (fuel + 1) e s with
      | .out s' (.ok v) => .out s' (.ok (.vbool (valueToBool v)))
      | .out s' (.error g) => .out s' (.error g)
      | .panicked m => .panicked m
      | .fuelOut => .fuelOut) ∧
    (evalExpressionValue E (fuel + 3)
        (.InfixExpression (.BooleanLiteral false) "||" e) s =
      match evalExpressionValue E (fuel + 1) e s with
      | .out s' (.ok v) => .out s' (.ok (.vbool (valueToBool v)))
      | .out s' (.error g) => .out s' (.error g)
      | .panicked m => .panicked m
      | .fuelOut => .fuelOut) := by
  refine ⟨rfl, rfl, ?_, ?_⟩
  · rw [show evalExpressionValue E (fuel + 3)
        (.InfixExpression (.BooleanLiteral true) "&&" e) s =
        (evalExpressionValue E (fuel + 1) e >>=
          fun r => (pure (Value.vbool (valueToBool r)) : EvalM Value)) s from rfl,
      evalM_bind_apply]
    cases hres : evalExpressionValue E (fuel + 1) e s with
    | out s' r => cases r <;> rfl
    | panicked m => rfl
    | fuelOut => rfl
  · rw [show evalExpressionValue E (fuel + 3)
        (.InfixExpression (.BooleanLiteral false) "||" e) s =
        (evalExpressionValue E (fuel + 1) e >>=
          fun r => (pure (Value.vbool (valueToBool r)) : EvalM Value)) s from rfl,
      evalM_bind_apply]
    cases hres : evalExpressionValue E (fuel + 1) e s with
    | out s' r => cases r <;> rfl
    | panicked m => rfl
    | fuelOut => rfl

/-- **C2**: the for-loop body's break signal halts the loop without error;
continue proceeds to the next iteration; a return signal or ordinary error
propagates out of the loop; and an uncaught break/continue/return at the top
level of `Eval` is returned to the caller on the error channel. -/
theorem C2_for_loop_control_flow (E : Ext) (fuel : Nat) (v : String)
    (body rest : List Stmt) (item rv : Value) (items : List Value)
    (msg : String) (s s1 : EvalState) :
    (evalBlockStatement E fuel body { s with vars := mapSet s.vars v item } =
        .out s1 (.error .brk) →
      runForLoop E (fuel + 1) v body (item :: items) s = .out s1 (.ok ())) ∧
    (evalBlockStatement E fuel body { s with vars := mapSet s.vars v item } =
        .out s1 (.error .cont) →
      runForLoop E (fuel + 1) v body (item :: items) s =
        runForLoop E fuel v body items s1) ∧
    (evalBlockStatement E fuel body { s with vars := mapSet s.vars v item } =
        .out s1 (.error (.ret rv)) →
      runForLoop E (fuel + 1) v body (item :: items) s =
        .out s1 (.error (.ret rv))) ∧
    (evalBlockStatement E fuel body { s with vars := mapSet s.vars v item } =
        .out s1 (.error (.err msg)) →
      runForLoop E (fuel + 1) v body (item :: items) s =
        .out s1 (.error (.err msg))) ∧
    (evalProgram E (fuel + 2) (.BreakStatement :: rest) s =
      .out s (.error .brk)) ∧
    (evalProgram E (fuel + 2) (.ContinueStatement :: rest) s =
      .out s (.error .cont)) ∧
    (evalProgram E (fuel + 3) (.ReturnStatement none :: rest) s =
      .out s (.error (.ret .vnil))) := by
  refine ⟨fun h => ?_, fun h => ?_, fun h => ?_, fun h => ?_, rfl, rfl, rfl⟩ <;>
    simp only [runForLoop, h]

/-- Witness for C2: a loop body that is just `break` halts its loop with no
error at a concrete state. -/
theorem C2_for_loop_control_flow_witness :
    runForLoop extDefault 6 "i" [.BreakStatement] [.vint 0] initState =
      .out { initState with vars := [("i", Value.vint 0)] } (.ok ()) :=
  (C2_for_loop_control_flow extDefault 5 "i" [.BreakStatement] [] (.vint 0) .vnil
    [] "" initState { initState with vars := [("i", Value.vint 0)] }).1 rfl

/-- **C9**: when the active input stream is not the process stdin (pipe right
side or input redirection), `print` and `output` ignore their arguments
entirely: the whole input stream is read (draining it), written to the active
output stream, and returned as the command's result. -/
theorem C9_print_ignores_args (args : List String) (s : EvalState)
    (content : String) (h : s.stdin = .data content) :
    execPrint args s =
      .out (writeOut { s with stdin := .data "" } content) (.ok content) ∧
    execOutput args s =
      .out (writeOut { s with stdin := .data "" } content) (.ok content) := by
  constructor <;> simp only [execOutput, execPrint, h]

/-- Witness for C9: piped-in `hello` is echoed regardless of the argument. -/
theorem C9_print_ignores_args_witness :
    execPrint ["ignored"] { initState with stdin := .data "hello" } =
      .out (writeOut { initState with stdin := .data "" } "hello") (.ok "hello") :=
  (C9_print_ignores_args ["ignored"] { initState with stdin := .data "hello" }
    "hello" rfl).1

/-- **C8**: `range(n)` for a negative integer `n` is a host-level panic from
`make([]Value, n)`, not a returned runtime error; the builtin's own guard
fires only when the argument cannot be converted to an integer. -/
theorem C8_range_negative_panics (E : Ext) (fuel : Nat) (n : Int) (s : EvalState)
    (hneg : n < 0)
    (hnofn : mapGet s.functions "range" = none) :
    evalExpressionValue E (fuel + 4) (.CallExpression "range" [.IntegerLiteral n]) s =
      .panicked "runtime error: makeslice: len out of range" ∧
    evalExpressionValue E (fuel + 4) (.CallExpression "range" [.StringLiteral "x"]) s =
      .out s (.error (.err "range() argument must be an integer")) := by
  constructor
  · show evalCallExpression E (fuel + 3) "range" [.IntegerLiteral n] s = _
    simp only [evalCallExpression, hnofn]
    show builtinRange E (fuel + 2) [.IntegerLiteral n] s = _
    simp only [builtinRange]
    show (evalExpressionValue E (fuel + 1) (.IntegerLiteral n) >>= _) s = _
    show (match valueToInt64 (.vint n) with
      | .error _ => throwErr "range() argument must be an integer"
      | .ok m =>
        if m < 0 then panicM "runtime error: makeslice: len out of range"
        else pure (.varr ((List.range m.toNat).map (fun i => .vint i)))
      : EvalM Value) s = _
    simp only [valueToInt64, if_pos hneg]
    rfl
  · show evalCallExpression E (fuel + 3) "range" [.StringLiteral "x"] s = _
    simp only [evalCallExpression, hnofn]
    rfl

/-- Witness for C8: `range(-1)` panics at a concrete state. -/
theorem C8_range_negative_panics_witness :
    evalExpressionValue extDefault 10
        (.CallExpression "range" [.IntegerLiteral (-1)]) initState =
      .panicked "runtime error: makeslice: len out of range" :=
  (C8_range_negative_panics extDefault 6 (-1) initState (by decide) rfl).1

/-- **C10**: `pop(arr)` on a non-empty array returns its last element and
does not remove it — the final state is the initial state, so the bound
array value is unchanged; `pop` on an empty array is the runtime error
`pop() on empty array`, not a crash. -/
theorem C10_pop_nonmutating (E : Ext) (fuel : Nat) (name : String)
    (arr : List Value) (s : EvalState)
    (hv : mapGet s.vars name = some (.varr arr))
    (hnofn : mapGet s.functions "pop" = none) :
    (arr ≠ [] →
      evalExpressionValue E (fuel + 4) (.CallExpression "pop" [.Identifier name]) s =
        .out s (.ok (arr.getLastD .vnil)) ∧
      mapGet s.vars name = some (.varr arr)) ∧
    (arr = [] →
      evalExpressionValue E (fuel + 4) (.CallExpression "pop" [.Identifier name]) s =
        .out s (.error (.err "pop() on empty array"))) := by
  have hstep :
      evalExpressionValue E (fuel + 4) (.CallExpression "pop" [.Identifier name]) s =
        builtinPop E (fuel + 2) [.Identifier name] s := by
    show evalCallExpression E (fuel + 3) "pop" [.Identifier name] s = _
    rw [show evalCallExpression E (fuel + 3) "pop" [.Identifier name] s =
      (match mapGet s.functions "pop" with
       | some fn => callUserFunction E (fuel + 2) fn [.Identifier name] s
       | none => builtinPop E (fuel + 2) [.Identifier name] s) from rfl, hnofn]
  have harg : evalExpressionValue E (fuel + 1) (.Identifier name) s =
      .out s (.ok (.varr arr)) := by
    rw [show evalExpressionValue E (fuel + 1) (.Identifier name) s =
      (match mapGet s.vars name with
       | some val => Outcome.out s (.ok val)
       | none => Outcome.out s (.ok (.vstr name))) from rfl, hv]
  have hbp : builtinPop E (fuel + 2) [.Identifier name] s =
      (evalExpressionValue E (fuel + 1) (.Identifier name) >>= fun v =>
        (match v with
         | .varr arr' =>
           if arr'.length == 0 then throwErr "pop() on empty array"
           else pure (arr'.getLastD .vnil)
         | _ => (throwErr "pop() argument must be an array" : EvalM Value))) s := rfl
  constructor
  · intro hne
    refine ⟨?_, hv⟩
    have hlenne : (arr.length == 0) = false := by
      cases arr with
      | nil => exact absurd rfl hne
      | cons a rest => rfl
    rw [hstep, hbp, evalM_bind_apply, harg]
    simp only [hlenne]
    rfl
  · intro he
    subst he
    rw [hstep, hbp, evalM_bind_apply, harg]
    rfl

/-- Witness for C10: `pop(xs)` with `xs = [1, 2]` yields `2` and leaves the
state untouched. -/
theorem C10_pop_nonmutating_witness :
    evalExpressionValue extDefault 10 (.CallExpression "pop" [.Identifier "xs"])
        { initState with vars := [("xs", .varr [.vint 1, .vint 2])] } =
      .out { initState with vars := [("xs", .varr [.vint 1, .vint 2])] }
        (.ok (.vint 2)) :=
  ((C10_pop_nonmutating extDefault 6 "xs" [.vint 1, .vint 2]
    { initState with vars := [("xs", .varr [.vint 1, .vint 2])] } rfl rfl).1
    (List.cons_ne_nil _ _)).1

end RavenShell
